import Mathlib

/-
Verification development for the PPTX import pipeline implemented in
src/PPTist/src/hooks/useImport.ts.

Conventions of the shallow embedding:
* JS numbers are modeled as rationals; decimal thresholds such as 0.28
  become exact rationals (28/100).  The line translator and the line
  rotation helper, which use trigonometry, are modeled over the reals.
* Rich HTML content is modeled by the data the helper functions extract
  from it: a list of text runs, each carrying an optional font-size
  declaration (in px) together with its plain text.  getMaxFontSizePx and
  htmlToPlainText are defined over that data.
* nanoid is modeled by a natural-number counter threaded through the
  functions that generate identifiers; each call returns the current
  counter value and increments it.
* In-place mutation of element objects (setTextType / clearTextType on
  elements shared between the slide and the scored lists) is modeled by
  updating the element with the matching id inside the slide; ids of
  translated elements are unique, so id equality models object identity.
-/

/- ---------- string helpers (substring search, lowercase, digit tests) ---------- -/

def strLower (s : String) : String := String.map Char.toLower s

def listStarts : List Char → List Char → Bool
  | [], _ => true
  | _ :: _, [] => false
  | a :: as, b :: bs => a == b && listStarts as bs

def listHasSub (needle : List Char) : List Char → Bool
  | [] => listStarts needle []
  | c :: rest => listStarts needle (c :: rest) || listHasSub needle rest

/-- The JS String.prototype.includes test, on our string model. -/
def strHas (hay needle : String) : Bool := listHasSub needle.data hay.data

def isWordChar (c : Char) : Bool := c.isAlphanum || c == '_'

def tldBoundary : List Char → Bool
  | [] => true
  | c :: _ => !isWordChar c

def tldAfterDot (rest : List Char) : Bool :=
  (listStarts "com".data rest && tldBoundary (rest.drop 3)) ||
  (listStarts "cn".data rest && tldBoundary (rest.drop 2)) ||
  (listStarts "net".data rest && tldBoundary (rest.drop 3)) ||
  (listStarts "org".data rest && tldBoundary (rest.drop 3))

def hasTldDot : List Char → Bool
  | [] => false
  | c :: rest => (c == '.' && tldAfterDot rest) || hasTldDot rest

/-- The URL-or-domain part of the brand regex in useImport.ts line 698. -/
def looksLikeUrl (t : String) : Bool :=
  strHas t "http://" || strHas t "https://" || strHas t "www." || hasTldDot t.data

/-- The regex test for one-or-more digits followed by an optional dot
(useImport.ts line 1030). -/
def digitsThenDot (l : List Char) : Bool :=
  let ds := l.takeWhile Char.isDigit
  let rest := l.drop ds.length
  !ds.isEmpty && (rest.isEmpty || rest == ['.'])

/- ---------- stable sorting and first-of-sorted, as JS Array.sort delivers ---------- -/

/-- Insert x after every element it does not strictly precede; together with
sortBy this gives a stable sort matching the JS comparator semantics. -/
def insertSorted (lt : α → α → Bool) (x : α) : List α → List α
  | [] => [x]
  | y :: ys => if lt x y then x :: y :: ys else y :: insertSorted lt x ys

/-- Stable sort by a strict before relation (the JS .sort(cmp)). -/
def sortBy (lt : α → α → Bool) (l : List α) : List α :=
  l.foldl (fun acc x => insertSorted lt x acc) []

/-- The head of a stable sort: first element in encounter order among the
minima of the strict before relation (the JS .sort(cmp)[0] idiom). -/
def pickTop (before : α → α → Bool) (l : List α) : Option α :=
  l.foldl (fun acc x =>
    match acc with
    | none => some x
    | some b => if before x b then some x else some b) none

/- ---------- translated-element model (types/slides.ts restricted to the
fields the classifier, tagger and synthesizer read) ---------- -/

structure TextRun where
  font : Option ℚ
  text : String
deriving DecidableEq, Repr

inductive ElKind
  | textKind
  | shapeTextKind
  | otherKind
deriving DecidableEq, Repr

structure PElem where
  id : ℕ
  kind : ElKind
  left : ℚ
  top : ℚ
  width : ℚ
  height : ℚ
  rotate : ℚ
  runs : List TextRun
  textType : Option String
  groupId : Option ℕ
deriving DecidableEq, Repr

instance : Inhabited PElem :=
  ⟨{ id := 0, kind := ElKind.otherKind, left := 0, top := 0, width := 0,
     height := 0, rotate := 0, runs := [], textType := none, groupId := none }⟩

structure Slide where
  id : ℕ
  elements : List PElem
  stype : Option String
deriving DecidableEq, Repr

def dummySlide : Slide := { id := 0, elements := [], stype := none }

instance : Inhabited Slide := ⟨dummySlide⟩

/-- The ambient sizes read from the store: V is viewportSize, H is
viewportSize * viewportRatio (the slideHeight of useImport.ts line 673). -/
structure Cfg where
  V : ℚ
  H : ℚ
deriving Repr

/- ---------- helpers of the classifier (useImport.ts lines 599-726) ---------- -/

/-- getHtmlText: text elements and shapes carrying text expose their html,
every other element yields the empty content. -/
def getRuns (e : PElem) : List TextRun :=
  match e.kind with
  | ElKind.otherKind => []
  | _ => e.runs

def htmlToPlainText (runs : List TextRun) : String :=
  (String.join (runs.map (fun r => r.text))).trim

/-- The largest font-size declaration found, defaulting to 16 (line 621). -/
def getMaxFontSizePx (runs : List TextRun) : ℚ :=
  let m := (runs.filterMap (fun r => r.font)).foldl (fun a b => max a b) 0
  if m = 0 then 16 else m

def setTextType (e : PElem) (t : String) : PElem :=
  match e.kind with
  | ElKind.otherKind => e
  | _ => { e with textType := some t }

def clearTextType (e : PElem) : PElem :=
  match e.kind with
  | ElKind.otherKind => e
  | _ => { e with textType := none }

def isTextual (e : PElem) : Bool := !(e.kind == ElKind.otherKind)

/-- getTextCandidates: text elements plus shapes that carry text. -/
def textualEls (els : List PElem) : List PElem := els.filter isTextual

/-- hasTextType over a raw element list (lines 665-671). -/
def hasTagL (els : List PElem) (t : String) : Bool :=
  els.any (fun e => isTextual e && e.textType == some t)

def hasTextType (s : Slide) (t : String) : Bool := hasTagL s.elements t

def isFooterLikeEl (cfg : Cfg) (e : PElem) : Bool :=
  decide (cfg.H * (9/10) ≤ e.top) && decide (e.height ≤ max 18 (cfg.H * (4/100)))

def isBrandLikeEl (cfg : Cfg) (plain : String) (e : PElem) : Bool :=
  let t := strLower plain
  if t == "" then false
  else if looksLikeUrl t then true
  else if strHas t "officeplus" then true
  else
    let font := getMaxFontSizePx (getRuns e)
    let inTopRight := decide (cfg.V * (65/100) ≤ e.left) && decide (e.top ≤ cfg.H * (18/100))
    inTopRight && decide (font ≤ 22) && decide (e.height ≤ cfg.H * (8/100)) &&
      decide (e.width ≤ cfg.V * (35/100))

def isTooTinyEl (cfg : Cfg) (e : PElem) (font : ℚ) : Bool :=
  let area := e.width * e.height
  let slideArea := cfg.V * cfg.H
  (decide (area ≤ slideArea * (4/1000)) && decide (font ≤ 12)) ||
  (decide (e.width ≤ cfg.V * (12/100)) && decide (font ≤ 12)) ||
  decide (e.height ≤ 10)

/- ---------- per-element scoring and keyword lookup (lines 644-663, 990-1013) ---------- -/

structure ScoredEl where
  el : PElem
  font : ℚ
  area : ℚ
  score : ℚ
  plain : String
deriving DecidableEq, Repr

instance : Inhabited ScoredEl :=
  ⟨{ el := default, font := 0, area := 0, score := 0, plain := "" }⟩

def mkScored (e : PElem) : ScoredEl :=
  let runs := getRuns e
  let font := getMaxFontSizePx runs
  let area := e.width * e.height
  { el := e, font := font, area := area,
    score := font * 100000 - e.top * 10 + area / 100,
    plain := htmlToPlainText runs }

def scoreDescLt (a b : ScoredEl) : Bool := decide (b.score < a.score)

/-- The comparator (a.top - b.top) or else (a.left - b.left). -/
def posLt (a b : ScoredEl) : Bool :=
  decide (a.el.top < b.el.top) ||
  (decide (a.el.top = b.el.top) && decide (a.el.left < b.el.left))

/-- The scored candidate list, sorted by descending score (lines 990-997). -/
def scoredOf (els : List PElem) : List ScoredEl :=
  sortBy scoreDescLt ((textualEls els).map mkScored)

/-- findByKeywords (lines 648-663): keyword hit, then best by font and top. -/
def findByKeywords (items : List (PElem × String)) (keywords : List String) : Option PElem :=
  if keywords.isEmpty then none
  else
    let lowerK := keywords.map strLower
    let matched := items.filter (fun it =>
      lowerK.any (fun k => !(k == "") && strHas (strLower it.2) k))
    if matched.isEmpty then none
    else
      let withFont := matched.map (fun it => (it.1, getMaxFontSizePx (getRuns it.1)))
      (pickTop (fun a b =>
          decide (b.2 < a.2) || (decide (a.2 = b.2) && decide (a.1.top < b.1.top)))
        withFont).map (fun p => p.1)

def keywordTitleMap (t : String) : List String :=
  if t == "cover" then ["标题", "主题", "title"]
  else if t == "transition" then ["章节", "部分", "part", "chapter", "title"]
  else if t == "contents" then ["目录", "contents", "outline", "agenda"]
  else if t == "content" then ["标题", "title"]
  else if t == "end" then ["致谢", "thanks", "thank", "结束"]
  else []

/- ---------- the tagger autoTagSlideTextTypes (lines 983-1177) ---------- -/

def titlePoolOf (cfg : Cfg) (els : List PElem) : List ScoredEl :=
  let scored := scoredOf els
  let nonBrand := scored.filter (fun s => !(isBrandLikeEl cfg s.plain s.el))
  if nonBrand.isEmpty then scored else nonBrand

/-- Title choice: keyword hit first, else best scored element in the upper
45 percent of the slide when one exists (lines 1007-1012). -/
def titleOf (cfg : Cfg) (els : List PElem) (t : String) : Option PElem :=
  let pool := titlePoolOf cfg els
  let topHalf := pool.filter (fun s => decide (s.el.top ≤ cfg.H * (45/100)))
  let fallback := ((if topHalf.isEmpty then pool else topHalf).head?).map (fun s => s.el)
  match findByKeywords (pool.map (fun s => (s.el, s.plain))) (keywordTitleMap t) with
  | some e => some e
  | none => fallback

/-- The non-title non-brand remainder (line 1015); object identity of the
title element is modeled by id equality. -/
def restOf (cfg : Cfg) (els : List PElem) (t : String) : List ScoredEl :=
  ((scoredOf els).filter (fun s =>
      match titleOf cfg els t with
      | none => true
      | some te => !(s.el.id == te.id))).filter
    (fun s => !(isBrandLikeEl cfg s.plain s.el))

def isNumberBoxS (cfg : Cfg) (s : ScoredEl) : Bool :=
  digitsThenDot s.plain.data ||
  (decide (0 < s.el.width) && decide (s.el.width < cfg.V * (12/100)))

def noFooterTiny (cfg : Cfg) (s : ScoredEl) : Bool :=
  !(isFooterLikeEl cfg s.el) && !(isTooTinyEl cfg s.el s.font)

def subtitleKeywords : List String := ["简介", "副标题", "说明", "content", "subtitle"]

/-- Subtitle choice for cover and transition slides (lines 1036-1041). -/
def coverContentOf (cfg : Cfg) (els : List PElem) (t : String) : Option PElem :=
  let rest := restOf cfg els t
  match findByKeywords (rest.map (fun s => (s.el, s.plain))) subtitleKeywords with
  | some e => some e
  | none =>
    (pickTop (fun a b =>
        decide (b.area < a.area) || (decide (a.area = b.area) && decide (a.el.top < b.el.top)))
      rest).map (fun s => s.el)

def transitionNumberOf (cfg : Cfg) (els : List PElem) : Option PElem :=
  (pickTop posLt ((restOf cfg els "transition").filter (isNumberBoxS cfg))).map
    (fun s => s.el)

def contentsRegionOf (cfg : Cfg) (els : List PElem) : List ScoredEl :=
  let rest := restOf cfg els "contents"
  let listRegion := (rest.filter (fun s =>
      decide (cfg.H * (18/100) ≤ s.el.top) && decide (s.el.top ≤ cfg.H * (92/100)))).filter
    (noFooterTiny cfg)
  if listRegion.isEmpty then rest.filter (noFooterTiny cfg) else listRegion

def contentsOrderedOf (cfg : Cfg) (els : List PElem) : List ScoredEl :=
  sortBy posLt (contentsRegionOf cfg els)

/-- The list-row candidates of the contents tagger: wide, short, of moderate
area (lines 1063-1071). -/
def contentsWideOf (cfg : Cfg) (els : List PElem) : List ScoredEl :=
  (contentsOrderedOf cfg els).filter (fun s =>
    decide (cfg.V * (28/100) ≤ s.el.width) &&
    decide (s.el.height ≤ cfg.H * (14/100)) &&
    decide (s.el.width * s.el.height ≤ cfg.V * cfg.H * (25/100)))

/-- The contents branch of the tagger expressed as tagging steps
(lists of element ids with the tag they receive), lines 1050-1107. -/
def contentsSteps (cfg : Cfg) (els : List PElem) : List (List ℕ × String) :=
  if (contentsRegionOf cfg els).isEmpty then []
  else
    let wide := contentsWideOf cfg els
    if wide.length < 3 then []
    else
      let lefts := sortBy (fun a b => decide (a < b)) (wide.map (fun s => s.el.left))
      let itemLeft := lefts.getD (lefts.length / 2) 0
      let leftTol := max 24 (cfg.V * (6/100))
      let itemBoxes := sortBy (fun a b => decide (a.el.top < b.el.top))
        (wide.filter (fun s => decide (|s.el.left - itemLeft| ≤ leftTol)))
      if itemBoxes.length < 3 then []
      else
        let narrow := (contentsOrderedOf cfg els).filter (fun s =>
          decide (s.el.width ≤ cfg.V * (18/100)) && decide (s.el.left < itemLeft) &&
          !(isTooTinyEl cfg s.el s.font))
        let numberSteps := itemBoxes.filterMap (fun it =>
          let tolY := max 16 (min 36 (it.el.height * (8/10)))
          (pickTop (fun a b => decide (a.el.left < b.el.left))
            (narrow.filter (fun nn => decide (|nn.el.top - it.el.top| ≤ tolY)))).map
            (fun m => ([m.el.id], "itemNumber")))
        (itemBoxes.map (fun s => s.el.id), "item") :: numberSteps

def contentRegionOf (cfg : Cfg) (els : List PElem) : List ScoredEl :=
  let rest := restOf cfg els "content"
  let body := (rest.filter (fun s => decide (cfg.H * (16/100) ≤ s.el.top))).filter
    (noFooterTiny cfg)
  if body.isEmpty then rest.filter (noFooterTiny cfg) else body

def contentOrderedOf (cfg : Cfg) (els : List PElem) : List ScoredEl :=
  sortBy posLt (contentRegionOf cfg els)

def contentNumberBoxesOf (cfg : Cfg) (els : List PElem) : List ScoredEl :=
  (contentOrderedOf cfg els).filter (fun s =>
    decide (s.el.width ≤ cfg.V * (14/100)) && decide (s.el.left ≤ cfg.V * (1/2)) &&
    isNumberBoxS cfg s)

/-- The content branch of the tagger as tagging steps (lines 1110-1176). -/
def contentSteps (cfg : Cfg) (els : List PElem) : List (List ℕ × String) :=
  if (contentRegionOf cfg els).isEmpty then []
  else
    let ordered := contentOrderedOf cfg els
    let numberBoxes := contentNumberBoxesOf cfg els
    let numberStep : List (List ℕ × String) :=
      [(numberBoxes.map (fun s => s.el.id), "itemNumber")]
    let textBoxes := ordered.filter (fun s =>
      !(numberBoxes.any (fun nb => nb.el.id == s.el.id)))
    let slideArea := cfg.V * cfg.H
    match pickTop (fun a b =>
        decide (b.area < a.area) || (decide (a.area = b.area) && decide (b.font < a.font)))
      (textBoxes.filter (fun s =>
        decide (cfg.V * (35/100) ≤ s.el.width) && decide (cfg.H * (12/100) ≤ s.el.height) &&
        decide (slideArea * (6/100) ≤ s.area))) with
    | none => numberStep
    | some c =>
      let remaining := textBoxes.filter (fun s => !(s.el.id == c.el.id))
      let pairCandidates := sortBy posLt (remaining.filter (fun s =>
        decide (cfg.V * (22/100) ≤ s.el.width) && decide ((14:ℚ) ≤ s.el.height) &&
        decide (s.el.height ≤ cfg.H * (18/100)) && decide (slideArea * (1/100) ≤ s.area)))
      let maxPairs := min 4 (pairCandidates.length / 2)
      let pairSteps := (List.range maxPairs).map (fun i =>
        let a := pairCandidates.getD (2*i) default
        let b := pairCandidates.getD (2*i+1) default
        if decide (a.el.height ≤ b.el.height) then
          [([a.el.id], "itemTitle"), ([b.el.id], "item")]
        else
          [([b.el.id], "itemTitle"), ([a.el.id], "item")])
      numberStep ++ [([c.el.id], "content")] ++ pairSteps.flatten

/-- Apply one tag to the elements with the given ids (in-place setTextType on
shared objects, modeled through id identity). -/
def tagIds (els : List PElem) (ids : List ℕ) (t : String) : List PElem :=
  els.map (fun e => if ids.any (fun i => i == e.id) then setTextType e t else e)

def applySteps (els : List PElem) (steps : List (List ℕ × String)) : List PElem :=
  steps.foldl (fun es st => tagIds es st.1 st.2) els

def autoTagSteps (cfg : Cfg) (els : List PElem) (t : String) : List (List ℕ × String) :=
  let titleStep :=
    match titleOf cfg els t with
    | some e => [([e.id], "title")]
    | none => []
  let branchSteps :=
    if t == "cover" || t == "transition" then
      (match coverContentOf cfg els t with
       | some e => [([e.id], "content")]
       | none => []) ++
      (if t == "transition" then
        match transitionNumberOf cfg els with
        | some e => [([e.id], "partNumber")]
        | none => []
      else [])
    else if t == "contents" then contentsSteps cfg els
    else if t == "content" then contentSteps cfg els
    else []
  titleStep ++ branchSteps

/-- autoTagSlideTextTypes on the element list: no candidates means no change;
otherwise old tags are cleared and the computed steps are applied. -/
def autoTagElems (cfg : Cfg) (els : List PElem) (t : String) : List PElem :=
  if (textualEls els).isEmpty then els
  else
    let cleared := els.map clearTextType
    applySteps cleared (autoTagSteps cfg cleared t)

def autoTagSlideTextTypes (cfg : Cfg) (s : Slide) (t : String) : Slide :=
  { s with elements := autoTagElems cfg s.elements t }

/- ---------- slide statistics and role scoring (lines 1179-1258) ---------- -/

structure StatEl where
  el : PElem
  plain : String
  font : ℚ
  w : ℚ
  h : ℚ
  area : ℚ
deriving Repr

def statOf (e : PElem) : StatEl :=
  let runs := getRuns e
  { el := e, plain := htmlToPlainText runs, font := getMaxFontSizePx runs,
    w := e.width, h := e.height, area := e.width * e.height }

/-- The usable text elements of getSlideTextStats (lines 1189-1193). -/
def usableOf (cfg : Cfg) (s : Slide) : List StatEl :=
  ((((textualEls s.elements).map statOf).filter (fun c => !(c.plain == ""))).filter
      (fun c => !(isFooterLikeEl cfg c.el))).filter
    (fun c => !(isBrandLikeEl cfg c.plain c.el)) |>.filter
    (fun c => !(isTooTinyEl cfg c.el c.font))

def lowerAllOf (cfg : Cfg) (s : Slide) : String :=
  String.intercalate " | " ((usableOf cfg s).map (fun c => strLower c.plain))

def maxFontOf (cfg : Cfg) (s : Slide) : ℚ :=
  ((usableOf cfg s).map (fun c => c.font)).foldl (fun a b => max a b) 0

def maxFontTopOf (cfg : Cfg) (s : Slide) : ℚ :=
  match pickTop (fun a b => decide (b.font < a.font)) (usableOf cfg s) with
  | some c => c.el.top
  | none => 0

def listLikeCountOf (cfg : Cfg) (s : Slide) : ℕ :=
  ((usableOf cfg s).filter (fun c =>
    decide (cfg.V * (28/100) ≤ c.w) && decide (c.h ≤ cfg.H * (16/100)) &&
    decide (c.area ≤ cfg.V * cfg.H * (25/100)))).length

def hasKw (cfg : Cfg) (s : Slide) (kws : List String) : Bool :=
  kws.any (fun k => strHas (lowerAllOf cfg s) (strLower k))

/-- scoreSlideAs (lines 1217-1258). -/
def scoreSlideAs (cfg : Cfg) (s : Slide) (t : String) : ℚ :=
  let textCount := (usableOf cfg s).length
  if t == "end" then
    (if hasKw cfg s ["致谢", "谢谢", "thanks", "thank", "the end", "结束"] then 120 else 0) +
    (if textCount ≤ 3 then 20 else 0) +
    (if (36:ℚ) ≤ maxFontOf cfg s then 10 else 0)
  else if t == "contents" then
    (if hasKw cfg s ["目录", "contents", "outline", "agenda"] then 100 else 0) +
    min 60 ((listLikeCountOf cfg s : ℚ) * 10) +
    (if 5 ≤ textCount then 10 else 0) +
    (if (28:ℚ) ≤ maxFontOf cfg s ∧ maxFontTopOf cfg s < cfg.H * (35/100) then 10 else 0)
  else if t == "transition" then
    (if hasKw cfg s ["章节", "部分", "part", "chapter", "section"] then 80 else 0) +
    (if textCount ≤ 3 then 30 else 0) +
    (if (40:ℚ) ≤ maxFontOf cfg s ∧ cfg.H * (2/10) ≤ maxFontTopOf cfg s ∧
        maxFontTopOf cfg s ≤ cfg.H * (7/10) then 40 else 0) +
    (if 4 ≤ listLikeCountOf cfg s then -40 else 0)
  else if t == "cover" then
    (if hasKw cfg s ["封面", "title", "主题"] then 40 else 0) +
    (if (40:ℚ) ≤ maxFontOf cfg s ∧ maxFontTopOf cfg s < cfg.H * (35/100) then 60 else 0) +
    (if textCount ≤ 4 then 20 else 0) +
    (if 4 ≤ listLikeCountOf cfg s then -60 else 0)
  else
    (if 4 ≤ listLikeCountOf cfg s then 20 else 0) +
    (if 2 ≤ textCount then 10 else 0)

/- ---------- placeholder synthesis ensurePlaceholders (lines 756-981) ---------- -/

/-- The non-breaking-space placeholder content of makeEmptyContentHtml. -/
def nbspText : String := " "

def mkPlaceholderBox (idv : ℕ) (l t w h fs : ℚ) (tag : String) (gid : Option ℕ) : PElem :=
  { id := idv, kind := ElKind.textKind, left := l, top := t, width := w, height := h,
    rotate := 0, runs := [{ font := some fs, text := nbspText }],
    textType := some tag, groupId := gid }

def marginX (cfg : Cfg) : ℚ := max 40 (cfg.V * (6/100))

def marginTop (cfg : Cfg) : ℚ := max 30 (cfg.H * (6/100))

def innerWidth (cfg : Cfg) : ℚ := cfg.V - marginX cfg * 2

/-- The loop of the contents branch (lines 858-885): each row generates a
group id, then a number box and an item box for the tags that are missing
slide-wide.  Returns the appended boxes together with the advanced counter. -/
def contentsRowBoxes (cfg : Cfg) (hasItem hasNum : Bool) : ℕ → ℕ → ℕ → List PElem × ℕ
  | _, c, 0 => ([], c)
  | i, c, n+1 =>
    let rowH := max 28 (cfg.H * (55/1000))
    let startY := cfg.H * (22/100)
    let gid := c
    let c1 := c + 1
    let (numBoxes, c2) :=
      if hasNum then ([], c1)
      else ([mkPlaceholderBox c1 (marginX cfg) (startY + (i : ℚ) * rowH) 60 rowH 18
        "itemNumber" (some gid)], c1 + 1)
    let (itmBoxes, c3) :=
      if hasItem then ([], c2)
      else ([mkPlaceholderBox c2 (marginX cfg + 60) (startY + (i : ℚ) * rowH)
        (innerWidth cfg - 60) rowH 18 "item" (some gid)], c2 + 1)
    let (restBoxes, c4) := contentsRowBoxes cfg hasItem hasNum (i+1) c3 n
    (numBoxes ++ itmBoxes ++ restBoxes, c4)

/-- The loop of the content branch (lines 938-978): per row a group id, then
number, itemTitle and item boxes for the tags missing slide-wide. -/
def contentTripleBoxes (cfg : Cfg) (hasItem hasItemTitle hasNum : Bool) :
    ℕ → ℕ → ℕ → List PElem × ℕ
  | _, c, 0 => ([], c)
  | i, c, n+1 =>
    let startY := cfg.H * (22/100)
    let blockH := cfg.H * (15/100)
    let numberW : ℚ := 46
    let titleH := max 26 (blockH * (38/100))
    let textH := max 34 (blockH * (62/100))
    let baseY := startY + (i : ℚ) * blockH
    let gid := c
    let c1 := c + 1
    let (nb, c2) :=
      if hasNum then ([], c1)
      else ([mkPlaceholderBox c1 (marginX cfg) baseY numberW titleH 18
        "itemNumber" (some gid)], c1 + 1)
    let (tb, c3) :=
      if hasItemTitle then ([], c2)
      else ([mkPlaceholderBox c2 (marginX cfg + numberW + 10) baseY
        (innerWidth cfg - numberW - 10) titleH 18 "itemTitle" (some gid)], c2 + 1)
    let (ib, c4) :=
      if hasItem then ([], c3)
      else ([mkPlaceholderBox c3 (marginX cfg + numberW + 10) (baseY + titleH)
        (innerWidth cfg - numberW - 10) textH 16 "item" (some gid)], c3 + 1)
    let (restBoxes, c5) := contentTripleBoxes cfg hasItem hasItemTitle hasNum (i+1) c4 n
    (nb ++ tb ++ ib ++ restBoxes, c5)

/-- The cover branch of ensurePlaceholders (lines 766-790). -/
def coverExtra (cfg : Cfg) (els : List PElem) (c : ℕ) : List PElem × ℕ :=
  let (a, c1) :=
    if hasTagL els "title" then ([], c)
    else ([mkPlaceholderBox c (marginX cfg) (marginTop cfg) (innerWidth cfg)
      (cfg.H * (18/100)) 40 "title" none], c + 1)
  let (b, c2) :=
    if hasTagL els "content" then ([], c1)
    else ([mkPlaceholderBox c1 (marginX cfg) (marginTop cfg + cfg.H * (2/10))
      (innerWidth cfg) (cfg.H * (22/100)) 20 "content" none], c1 + 1)
  (a ++ b, c2)

/-- The transition branch of ensurePlaceholders (lines 792-827). -/
def transitionExtra (cfg : Cfg) (els : List PElem) (c : ℕ) : List PElem × ℕ :=
  let (a, c1) :=
    if hasTagL els "title" then ([], c)
    else ([mkPlaceholderBox c (marginX cfg) (cfg.H * (28/100)) (innerWidth cfg)
      (cfg.H * (16/100)) 36 "title" none], c + 1)
  let (b, c2) :=
    if hasTagL els "content" then ([], c1)
    else ([mkPlaceholderBox c1 (marginX cfg) (cfg.H * (46/100)) (innerWidth cfg)
      (cfg.H * (18/100)) 18 "content" none], c1 + 1)
  let (d, c3) :=
    if hasTagL els "partNumber" then ([], c2)
    else ([mkPlaceholderBox c2 (cfg.V - marginX cfg - 120) (marginTop cfg) 120 60 24
      "partNumber" none], c2 + 1)
  (a ++ b ++ d, c3)

/-- The end branch of ensurePlaceholders (lines 829-843). -/
def endExtra (cfg : Cfg) (els : List PElem) (c : ℕ) : List PElem × ℕ :=
  if hasTagL els "title" then ([], c)
  else ([mkPlaceholderBox c (marginX cfg) (cfg.H * (38/100)) (innerWidth cfg)
    (cfg.H * (18/100)) 40 "title" none], c + 1)

/-- The contents branch of ensurePlaceholders (lines 845-899). -/
def contentsExtra (cfg : Cfg) (els : List PElem) (c : ℕ) : List PElem × ℕ :=
  let hasI := hasTagL els "item"
  let hasN := hasTagL els "itemNumber"
  let (rows, c1) :=
    if hasI && hasN then ([], c) else contentsRowBoxes cfg hasI hasN 0 c 10
  let (tb, c2) :=
    if hasTagL els "title" then ([], c1)
    else ([mkPlaceholderBox c1 (marginX cfg) (marginTop cfg) (innerWidth cfg)
      (cfg.H * (14/100)) 32 "title" none], c1 + 1)
  (rows ++ tb, c2)

/-- The content branch of ensurePlaceholders (lines 901-980). -/
def contentRoleExtra (cfg : Cfg) (els : List PElem) (c : ℕ) : List PElem × ℕ :=
  let (tb, c1) :=
    if hasTagL els "title" then ([], c)
    else ([mkPlaceholderBox c (marginX cfg) (marginTop cfg) (innerWidth cfg)
      (cfg.H * (12/100)) 28 "title" none], c + 1)
  let (cb, c2) :=
    if hasTagL els "content" then ([], c1)
    else ([mkPlaceholderBox c1 (marginX cfg) (cfg.H * (22/100)) (innerWidth cfg)
      (cfg.H * (6/10)) 18 "content" none], c1 + 1)
  let hasI := hasTagL els "item"
  let hasIT := hasTagL els "itemTitle"
  let hasN := hasTagL els "itemNumber"
  let (rows, c3) :=
    if hasI && hasIT && hasN then ([], c2)
    else contentTripleBoxes cfg hasI hasIT hasN 0 c2 4
  (tb ++ cb ++ rows, c3)

/-- The boxes ensurePlaceholders appends for a given role.  The function only
ever pushes onto the slide, and every box it pushes before a later hasTextType
check carries a different tag than the one checked, so all the conditions are
evaluated against the original element list. -/
def ensureExtra (cfg : Cfg) (els : List PElem) (t : String) (c : ℕ) : List PElem × ℕ :=
  if t == "cover" then coverExtra cfg els c
  else if t == "transition" then transitionExtra cfg els c
  else if t == "end" then endExtra cfg els c
  else if t == "contents" then contentsExtra cfg els c
  else if t == "content" then contentRoleExtra cfg els c
  else ([], c)

def ensurePlaceholders (cfg : Cfg) (s : Slide) (t : String) (c : ℕ) : Slide × ℕ :=
  let (extra, c2) := ensureExtra cfg s.elements t c
  ({ s with elements := s.elements ++ extra }, c2)

/-- cloneSlide (line 1260): a JSON round trip, i.e. the identity on values. -/
def cloneSlide (s : Slide) : Slide := s

/-- toTemplateSlide (lines 1265-1271). -/
def toTemplateSlide (cfg : Cfg) (source : Slide) (t : String) (c : ℕ) : Slide × ℕ :=
  let s1 := { cloneSlide source with stype := some t }
  let s2 := autoTagSlideTextTypes cfg s1 t
  ensurePlaceholders cfg s2 t c

/- ---------- role assignment and template assembly (lines 1273-1331) ---------- -/

/-- The scan of pickBestIndex (lines 1279-1286): strict improvement over the
running best, skipping already claimed indices; the missing best (bestIdx of
-1) is the none accumulator. -/
def bestLoop (score : ℕ → ℚ) (used : List ℕ) : List ℕ → Option (ℕ × ℚ) → Option (ℕ × ℚ)
  | [], acc => acc
  | i :: is, acc =>
    if i ∈ used then bestLoop score used is acc
    else
      match acc with
      | none => bestLoop score used is (some (i, score i))
      | some (b, bs) =>
        if bs < score i then bestLoop score used is (some (i, score i))
        else bestLoop score used is (some (b, bs))

/-- The collision loop (lines 1297-1302): first not-yet-claimed index. -/
def firstFree (used : List ℕ) : List ℕ → Option ℕ
  | [] => none
  | i :: is => if i ∈ used then firstFree used is else some i

/-- The fallback path of pickBestIndex (lines 1291-1303). -/
def pickFallback (n fallbackIndex : ℕ) (used : List ℕ) : ℕ × List ℕ :=
  let fb := min fallbackIndex (n - 1)
  if fb ∈ used then
    match firstFree used (List.range n) with
    | some i => (i, i :: used)
    | none => (fb, used)
  else (fb, fb :: used)

/-- pickBestIndex (lines 1276-1304), returning the claimed index and the
updated claimed set. -/
def pickBestIndex (score : ℕ → ℚ) (n fallbackIndex : ℕ) (threshold : ℚ)
    (used : List ℕ) : ℕ × List ℕ :=
  match bestLoop score used (List.range n) none with
  | some (b, bs) =>
    if threshold ≤ bs then (b, b :: used) else pickFallback n fallbackIndex used
  | none => pickFallback n fallbackIndex used

def scoreAt (cfg : Cfg) (slides : List Slide) (t : String) (i : ℕ) : ℚ :=
  scoreSlideAs cfg (slides.getD i dummySlide) t

/-- The four claims in source order: end, cover, contents, transition, with
their fallback indices and thresholds (lines 1306-1310). -/
def assignIndices (cfg : Cfg) (src : List Slide) : ℕ × ℕ × ℕ × ℕ × List ℕ :=
  let n := src.length
  let (e, u1) := pickBestIndex (scoreAt cfg src "end") n (n - 1) 80 []
  let (cv, u2) := pickBestIndex (scoreAt cfg src "cover") n 0 60 u1
  let (co, u3) := pickBestIndex (scoreAt cfg src "contents") n 1 60 u2
  let (tr, u4) := pickBestIndex (scoreAt cfg src "transition") n 2 50 u3
  (e, cv, co, tr, u4)

/-- Line 1273: an empty parse yields a single synthetic empty slide. -/
def normalizeSources (slides : List Slide) (c : ℕ) : List Slide × ℕ :=
  if slides.isEmpty then ([{ id := c, elements := [], stype := none }], c + 1)
  else (slides, c)

def mapToTemplate (cfg : Cfg) : List Slide → ℕ → List Slide × ℕ
  | [], c => ([], c)
  | s :: rest, c =>
    let (s2, c2) := toTemplateSlide cfg s "content" c
    let (rest2, c3) := mapToTemplate cfg rest c2
    (s2 :: rest2, c3)

/-- The content sources: every slide whose index none of the four singular
roles claimed, or the cover source when none remains (lines 1317-1322). -/
def contentSourcesOf (src : List Slide) (e cv co tr : ℕ) : List Slide :=
  let raw := ((List.range src.length).filter
    (fun i => !(i == cv || i == co || i == tr || i == e))).map
    (fun i => src.getD i dummySlide)
  if raw.isEmpty then [src.getD cv dummySlide] else raw

/-- The assembly of parsePPTXTemplate after translation (lines 1273-1330). -/
def assembleTemplate (cfg : Cfg) (slides : List Slide) (c : ℕ) : List Slide × ℕ :=
  let (src, c0) := normalizeSources slides c
  let (e, cv, co, tr, _) := assignIndices cfg src
  let (coverS, c1) := toTemplateSlide cfg (src.getD cv dummySlide) "cover" c0
  let (contentsS, c2) := toTemplateSlide cfg (src.getD co dummySlide) "contents" c1
  let (transitionS, c3) := toTemplateSlide cfg (src.getD tr dummySlide) "transition" c2
  let (endS, c4) := toTemplateSlide cfg (src.getD e dummySlide) "end" c3
  let (contentS, c5) := mapToTemplate cfg (contentSourcesOf src e cv co tr) c4
  (coverS :: contentsS :: transitionS :: (contentS ++ [endS]), c5)

/- ---------- entry points (lines 54-61, 1538-1546): the parsed document is
represented by its translated slides, none standing for a parse failure ---------- -/

inductive ImportOutcome
  | noop
  | parseError
  | committed (slides : List Slide)
deriving DecidableEq

/-- importPPTXFile prologue (lines 1545-1546): a missing first file returns
without doing anything and without raising; a parse failure only reports. -/
def importPPTXFileRun (docs : List (Option (List Slide))) : ImportOutcome :=
  match docs.head? with
  | none => ImportOutcome.noop
  | some none => ImportOutcome.parseError
  | some (some slides) => ImportOutcome.committed slides

/-- parsePPTXTemplate (lines 54-74): a missing first file throws the error
labelled no-file; a parse failure throws; otherwise the template is built. -/
def parsePPTXTemplateRun (cfg : Cfg) (docs : List (Option (List Slide))) (c : ℕ) :
    Except String (List Slide) :=
  match docs.head? with
  | none => Except.error "no file"
  | some none => Except.error "parse failed"
  | some (some slides) => Except.ok (assembleTemplate cfg slides c).1

/- ---------- line translator (lines 1385-1490), over the reals ---------- -/

structure SrcLineEl where
  left : ℝ
  top : ℝ
  width : ℝ
  height : ℝ
  rotate : ℝ
  isFlipH : Bool
  isFlipV : Bool
  borderWidth : Option ℝ
  shapType : String

structure PLineEl where
  width : ℝ
  left : ℝ
  top : ℝ
  startPt : ℝ × ℝ
  endPt : ℝ × ℝ
  arrow : Bool
  broken2 : Option (ℝ × ℝ)
  cubic : Option ((ℝ × ℝ) × (ℝ × ℝ))

/-- rotateLine (lines 1385-1432): rotate the endpoints about their midpoint,
re-anchor the result at its new minimum corner, and report the offset of the
new bounding box against the old one. -/
noncomputable def rotateLine (s e : ℝ × ℝ) (angleDeg : ℝ) :
    (ℝ × ℝ) × (ℝ × ℝ) × (ℝ × ℝ) :=
  let angleRad := angleDeg * Real.pi / 180
  let midX := (s.1 + e.1) / 2
  let midY := (s.2 + e.2) / 2
  let startTransX := s.1 - midX
  let startTransY := s.2 - midY
  let endTransX := e.1 - midX
  let endTransY := e.2 - midY
  let cosA := Real.cos angleRad
  let sinA := Real.sin angleRad
  let startRotX := startTransX * cosA - startTransY * sinA
  let startRotY := startTransX * sinA + startTransY * cosA
  let endRotX := endTransX * cosA - endTransY * sinA
  let endRotY := endTransX * sinA + endTransY * cosA
  let startNewX := startRotX + midX
  let startNewY := startRotY + midY
  let endNewX := endRotX + midX
  let endNewY := endRotY + midY
  let beforeMinX := min s.1 e.1
  let beforeMinY := min s.2 e.2
  let afterMinX := min startNewX endNewX
  let afterMinY := min startNewY endNewY
  ((startNewX - afterMinX, startNewY - afterMinY),
   (endNewX - afterMinX, endNewY - afterMinY),
   (afterMinX - beforeMinX, afterMinY - beforeMinY))

/-- parseLineElement (lines 1434-1489); the toFixed rounding of the border
width is not modeled. -/
noncomputable def parseLineElement (el : SrcLineEl) (ratio : ℝ) : PLineEl :=
  let se : (ℝ × ℝ) × (ℝ × ℝ) :=
    if !el.isFlipV && !el.isFlipH then ((0, 0), (el.width, el.height))
    else if el.isFlipV && el.isFlipH then ((el.width, el.height), (0, 0))
    else if el.isFlipV && !el.isFlipH then ((0, el.height), (el.width, 0))
    else ((el.width, 0), (0, el.height))
  let base : PLineEl :=
    { width := el.borderWidth.getD 1 * ratio, left := el.left, top := el.top,
      startPt := se.1, endPt := se.2,
      arrow := strHas el.shapType "straightConnector",
      broken2 := none, cubic := none }
  let withRot : PLineEl :=
    if el.rotate = 0 then base
    else
      let r := rotateLine base.startPt base.endPt el.rotate
      { base with startPt := r.1, endPt := r.2.1,
                  left := base.left + r.2.2.1, top := base.top + r.2.2.2 }
  let withBroken : PLineEl :=
    if strHas el.shapType "bentConnector" then
      let br := (|withRot.startPt.1 - withRot.endPt.1| / 2,
                 |withRot.startPt.2 - withRot.endPt.2| / 2)
      { withRot with broken2 := some br }
    else withRot
  if strHas el.shapType "curvedConnector" then
    let cub := (|withBroken.startPt.1 - withBroken.endPt.1| / 2,
                |withBroken.startPt.2 - withBroken.endPt.2| / 2)
    { withBroken with cubic := some (cub, cub) }
  else withBroken

/- ---------- table translator (lines 407-484) ---------- -/

structure SrcBorderDef where
  borderWidth : Option ℚ
  borderType : Option String
  borderColor : Option String
deriving DecidableEq

structure SrcBorders where
  btop : Option SrcBorderDef
  bbottom : Option SrcBorderDef
  bleft : Option SrcBorderDef
  bright : Option SrcBorderDef
deriving DecidableEq

/-- The data the DOM probe extracts from a source cell html (lines 421-429):
the first paragraph alignment, the first span font size, family and color,
and the flattened inner text. -/
structure CellHtml where
  pAlign : Option String
  spanFontSize : Option ℚ
  spanFontFamily : Option String
  spanColor : Option String
  plain : String
deriving DecidableEq

structure SrcTableCell where
  chtml : CellHtml
  colSpan : Option ℕ
  rowSpan : Option ℕ
  fontColor : Option String
  fontBold : Bool
  fillColor : Option String
  borders : SrcBorders
deriving DecidableEq

def dummySrcCell : SrcTableCell :=
  { chtml := { pAlign := none, spanFontSize := none, spanFontFamily := none,
               spanColor := none, plain := "" },
    colSpan := none, rowSpan := none, fontColor := none, fontBold := false,
    fillColor := none,
    borders := { btop := none, bbottom := none, bleft := none, bright := none } }

structure SrcTableEl where
  left : ℚ
  top : ℚ
  width : ℚ
  height : ℚ
  data : List (List SrcTableCell)
  colWidths : List ℚ
  rowHeights : List ℚ
  borders : SrcBorders
deriving DecidableEq

structure TableCellM where
  id : ℕ
  colspan : ℕ
  rowspan : ℕ
  text : String
  align : String
  fontsize : Option ℚ
  fontname : String
  color : Option String
  bold : Bool
  backcolor : Option String
deriving DecidableEq

def dummyCellM : TableCellM :=
  { id := 0, colspan := 1, rowspan := 1, text := "", align := "left",
    fontsize := none, fontname := "", color := none, bold := false,
    backcolor := none }

structure TableElM where
  id : ℕ
  width : ℚ
  height : ℚ
  left : ℚ
  top : ℚ
  colWidths : List ℚ
  data : List (List TableCellM)
  outlineWidth : ℚ
  outlineStyle : String
  outlineColor : String
  cellMinHeight : ℚ
deriving DecidableEq

/-- The JS defaulting colSpan to 1: zero or absent become 1 (the or-1 of
lines 433-434). -/
def spanOrOne : Option ℕ → ℕ
  | some (k+1) => k + 1
  | _ => 1

/-- One output cell (lines 431-445); the toFixed formatting of the font size
string is not modeled, the scaled numeric value is kept. -/
def translateTableCell (ratio : ℚ) (idv : ℕ) (cd : SrcTableCell) : TableCellM :=
  let align := cd.chtml.pAlign.getD "left"
  { id := idv,
    colspan := spanOrOne cd.colSpan,
    rowspan := spanOrOne cd.rowSpan,
    text := cd.chtml.plain,
    align := if align == "left" || align == "right" || align == "center" then align
             else "left",
    fontsize := cd.chtml.spanFontSize.map (fun v => v * ratio),
    fontname := cd.chtml.spanFontFamily.getD "",
    color := match cd.chtml.spanColor with
             | some cc => some cc
             | none => cd.fontColor,
    bold := cd.fontBold,
    backcolor := cd.fillColor }

/-- The or-chain over candidate borders (lines 455-462). -/
def firstBorder : List (Option SrcBorderDef) → Option SrcBorderDef
  | [] => none
  | some b :: _ => some b
  | none :: rest => firstBorder rest

/-- The table branch of parseElements (lines 407-484). -/
def parseTableElement (ratio : ℚ) (el : SrcTableEl) (c : ℕ) : TableElM × ℕ :=
  let nrow := el.data.length
  let ncol := (el.data.getD 0 []).length
  let data := (List.range nrow).map (fun i =>
    (List.range ncol).map (fun j =>
      translateTableCell ratio (c + i * ncol + j) ((el.data.getD i []).getD j dummySrcCell)))
  let cAfter := c + nrow * ncol
  let allWidth := el.colWidths.foldl (fun a b => a + b) 0
  let colWidths := el.colWidths.map (fun w => w / allWidth)
  let firstCell := (el.data.getD 0 []).getD 0 dummySrcCell
  let border := firstBorder
    [firstCell.borders.btop, firstCell.borders.bbottom, el.borders.btop, el.borders.bbottom,
     firstCell.borders.bleft, firstCell.borders.bright, el.borders.bleft, el.borders.bright]
  let bw := (border.bind (fun b => b.borderWidth)).getD 0
  ({ id := cAfter, width := el.width, height := el.height, left := el.left, top := el.top,
     colWidths := colWidths,
     data := data,
     outlineWidth := if bw * ratio = 0 then 2 else bw * ratio,
     outlineStyle := (border.bind (fun b => b.borderType)).getD "solid",
     outlineColor := (border.bind (fun b => b.borderColor)).getD "#eeece1",
     cellMinHeight := match el.rowHeights.head? with
       | some rh => if rh = 0 then 36 else rh * ratio
       | none => 36 }, cAfter + 1)

/- ---------- the state effect of parseElements on the parsed source
elements (lines 138-150) ---------- -/

/-- The geometry of a parsed source element as pptxtojson delivers it. -/
structure SrcGeom where
  left : ℚ
  top : ℚ
  width : ℚ
  height : ℚ
  order : ℤ
deriving DecidableEq, Repr

/-- The loop prologue of parseElements (lines 147-150): the element object
is overwritten with ratio-scaled geometry. -/
def scaleSrcGeom (ratio : ℚ) (g : SrcGeom) : SrcGeom :=
  { g with width := g.width * ratio, height := g.height * ratio,
           left := g.left * ratio, top := g.top * ratio }

instance : Inhabited SrcGeom :=
  ⟨{ left := 0, top := 0, width := 0, height := 0, order := 0 }⟩

def modifyIdx (f : α → α) : ℕ → List α → List α
  | _, [] => []
  | 0, a :: as => f a :: as
  | n+1, a :: as => a :: modifyIdx f n as

/-- The traversal order of the loop: the indices of the elements sorted by
their order field (the in-place sort of line 139 acts on the spread copy of
the array, so the object store keeps its original indexing). -/
def sortIdxByOrder (els : List SrcGeom) : List ℕ :=
  sortBy (fun i j => decide ((els.getD i default).order < (els.getD j default).order))
    (List.range els.length)

/-- The source-visible state after parseElements ran over the elements:
each visited element object has been overwritten with scaled geometry. -/
def srcAfterParseElements (ratio : ℚ) (els : List SrcGeom) : List SrcGeom :=
  (sortIdxByOrder els).foldl (fun st i => modifyIdx (scaleSrcGeom ratio) i st) els

/- ================================================================
   Theorems
   ================================================================ -/

/- ---------- C4: line endpoints from the flip flags ---------- -/

def mkSrcLine (l t w h rot : ℝ) (fH fV : Bool) (bw : Option ℝ) (st : String) : SrcLineEl :=
  { left := l, top := t, width := w, height := h, rotate := rot,
    isFlipH := fH, isFlipV := fV, borderWidth := bw, shapType := st }

/-- C4 counterexample: a rotated line or connector (rotate 90, no flips)
does not get the endpoints the claim assigns to the no-flip case, so the
endpoints are not determined solely by the two flip flags. -/
theorem line_endpoints_rotation_cex :
    (parseLineElement (mkSrcLine 0 0 3 4 90 false false none "line") 1).startPt ≠
      ((0:ℝ), 0) := by
  have hpi : (90:ℝ) * Real.pi / 180 = Real.pi / 2 := by ring
  simp only [parseLineElement, mkSrcLine, rotateLine, hpi, Real.cos_pi_div_two,
    Real.sin_pi_div_two]
  norm_num [min_def, strHas, listHasSub, listStarts]

/-- C4 amended: for every line or connector source element with rotation 0,
the translated endpoints are determined solely by the two flip flags: no flip
gives start (0,0) and end (w,h); both flips give start (w,h) and end (0,0);
vertical flip only gives start (0,h) and end (w,0); horizontal flip only
gives start (w,0) and end (0,h). -/
theorem line_endpoints_by_flips_unrotated (l t w h : ℝ) (bw : Option ℝ) (st : String)
    (ratio : ℝ) :
    ((parseLineElement (mkSrcLine l t w h 0 false false bw st) ratio).startPt = (0, 0) ∧
     (parseLineElement (mkSrcLine l t w h 0 false false bw st) ratio).endPt = (w, h)) ∧
    ((parseLineElement (mkSrcLine l t w h 0 true true bw st) ratio).startPt = (w, h) ∧
     (parseLineElement (mkSrcLine l t w h 0 true true bw st) ratio).endPt = (0, 0)) ∧
    ((parseLineElement (mkSrcLine l t w h 0 false true bw st) ratio).startPt = (0, h) ∧
     (parseLineElement (mkSrcLine l t w h 0 false true bw st) ratio).endPt = (w, 0)) ∧
    ((parseLineElement (mkSrcLine l t w h 0 true false bw st) ratio).startPt = (w, 0) ∧
     (parseLineElement (mkSrcLine l t w h 0 true false bw st) ratio).endPt = (0, h)) := by
  refine ⟨⟨?_, ?_⟩, ⟨?_, ?_⟩, ⟨?_, ?_⟩, ⟨?_, ?_⟩⟩ <;>
    (simp only [parseLineElement, mkSrcLine]; norm_num; (split <;> split) <;> simp)

/- ---------- C5: rotating a line by zero degrees ---------- -/

/-- C5 counterexample: rotating by 0 degrees re-anchors the endpoints at the
bounding-box minimum corner, so a line whose endpoints are not normalized
(start (5,3), end (2,7)) does not come back unchanged. -/
theorem rotate_zero_not_identity_cex :
    ¬ ((rotateLine ((5:ℝ), 3) (2, 7) 0).1 = ((5:ℝ), 3)) := by
  simp only [rotateLine, zero_mul, zero_div, Real.cos_zero, Real.sin_zero]
  norm_num [min_def]

/-- C5 amended: rotating a line by 0 degrees always yields a positional
offset of (0,0), and returns the endpoints unchanged whenever each
coordinate-wise minimum of the two endpoints is 0 (as holds for every line
the line translator produces). -/
theorem rotate_zero_offset_and_normalized (s e : ℝ × ℝ)
    (h1 : min s.1 e.1 = 0) (h2 : min s.2 e.2 = 0) :
    (rotateLine s e 0).1 = s ∧ (rotateLine s e 0).2.1 = e ∧
    (rotateLine s e 0).2.2 = (0, 0) := by
  simp only [rotateLine, zero_mul, zero_div, Real.cos_zero, Real.sin_zero]
  have a1 : (s.1 - (s.1 + e.1) / 2) * 1 - (s.2 - (s.2 + e.2) / 2) * 0 + (s.1 + e.1) / 2
      = s.1 := by ring
  have a2 : (s.1 - (s.1 + e.1) / 2) * 0 + (s.2 - (s.2 + e.2) / 2) * 1 + (s.2 + e.2) / 2
      = s.2 := by ring
  have a3 : (e.1 - (s.1 + e.1) / 2) * 1 - (e.2 - (s.2 + e.2) / 2) * 0 + (s.1 + e.1) / 2
      = e.1 := by ring
  have a4 : (e.1 - (s.1 + e.1) / 2) * 0 + (e.2 - (s.2 + e.2) / 2) * 1 + (s.2 + e.2) / 2
      = e.2 := by ring
  rw [a1, a2, a3, a4, h1, h2]
  simp

/-- Witness for the amended C5 theorem at start (0,0), end (3,4). -/
theorem rotate_zero_offset_and_normalized_witness :
    (min ((0:ℝ), (0:ℝ)).1 ((3:ℝ), (4:ℝ)).1 = 0 ∧ min ((0:ℝ), (0:ℝ)).2 ((3:ℝ), (4:ℝ)).2 = 0) ∧
    ((rotateLine ((0:ℝ), (0:ℝ)) ((3:ℝ), (4:ℝ)) 0).1 = ((0:ℝ), (0:ℝ)) ∧
     (rotateLine ((0:ℝ), (0:ℝ)) ((3:ℝ), (4:ℝ)) 0).2.1 = ((3:ℝ), (4:ℝ)) ∧
     (rotateLine ((0:ℝ), (0:ℝ)) ((3:ℝ), (4:ℝ)) 0).2.2 = (0, 0)) :=
  ⟨⟨by norm_num, by norm_num⟩,
   rotate_zero_offset_and_normalized ((0:ℝ), (0:ℝ)) ((3:ℝ), (4:ℝ))
     (by norm_num) (by norm_num)⟩

/- ---------- C9: empty input at the entry points ---------- -/

def cfgDefault : Cfg := { V := 1000, H := 5625/10 }

/-- C9 counterexample: the template entry point with no file supplied does
not no-op, it throws the no-file error (useImport.ts line 61). -/
theorem template_empty_input_cex :
    parsePPTXTemplateRun cfgDefault [] 0 = Except.error "no file" := rfl

/-- C9 amended: with an empty file list, importPPTXFile returns without doing
anything and without raising an error, while parsePPTXTemplate throws the
no-file error. -/
theorem empty_input_behavior (cfg : Cfg) (c : ℕ) :
    importPPTXFileRun [] = ImportOutcome.noop ∧
    parsePPTXTemplateRun cfg [] c = Except.error "no file" :=
  ⟨rfl, rfl⟩

/- ---------- C8: mutation of the parsed source elements ---------- -/

lemma insertSorted_perm (lt : α → α → Bool) (x : α) (l : List α) :
    (insertSorted lt x l).Perm (x :: l) := by
  induction l with
  | nil => simp [insertSorted]
  | cons y ys ih =>
    simp only [insertSorted]
    split
    · exact List.Perm.refl _
    · exact (ih.cons y).trans (List.Perm.swap x y ys)

lemma foldl_insert_perm (lt : α → α → Bool) (l acc : List α) :
    (l.foldl (fun acc x => insertSorted lt x acc) acc).Perm (acc ++ l) := by
  induction l generalizing acc with
  | nil => simp
  | cons x xs ih =>
    simp only [List.foldl_cons]
    refine (ih (insertSorted lt x acc)).trans ?_
    refine (List.Perm.append_right xs (insertSorted_perm lt x acc)).trans ?_
    exact List.perm_middle.symm

lemma sortBy_perm (lt : α → α → Bool) (l : List α) : (sortBy lt l).Perm l := by
  simpa using foldl_insert_perm lt l []

lemma modifyIdx_length (f : α → α) (i : ℕ) (l : List α) :
    (modifyIdx f i l).length = l.length := by
  induction l generalizing i with
  | nil => cases i <;> rfl
  | cons a as ih => cases i <;> simp [modifyIdx, ih]

lemma foldl_modify_length (f : α → α) (idxs : List ℕ) (l : List α) :
    (idxs.foldl (fun st i => modifyIdx f i st) l).length = l.length := by
  induction idxs generalizing l with
  | nil => rfl
  | cons i is ih => simp [List.foldl_cons, ih, modifyIdx_length]

lemma getD_modifyIdx_ne (f : α → α) (i j : ℕ) (l : List α) (d : α) (h : i ≠ j) :
    (modifyIdx f i l).getD j d = l.getD j d := by
  induction l generalizing i j with
  | nil => cases i <;> rfl
  | cons a as ih =>
    cases i with
    | zero =>
      cases j with
      | zero => exact absurd rfl h
      | succ j2 => simp [modifyIdx]
    | succ i2 =>
      cases j with
      | zero => simp [modifyIdx]
      | succ j2 => simpa [modifyIdx] using ih i2 j2 (by omega)

lemma getD_modifyIdx_self (f : α → α) (i : ℕ) (l : List α) (d : α) (h : i < l.length) :
    (modifyIdx f i l).getD i d = f (l.getD i d) := by
  induction l generalizing i with
  | nil => simp at h
  | cons a as ih =>
    cases i with
    | zero => simp [modifyIdx]
    | succ i2 => simpa [modifyIdx] using ih i2 (by simpa using h)

lemma foldl_modify_getD (f : α → α) (idxs : List ℕ) (l : List α) (k : ℕ) (d : α)
    (h : k < l.length) :
    (idxs.foldl (fun st i => modifyIdx f i st) l).getD k d =
      f^[idxs.count k] (l.getD k d) := by
  induction idxs generalizing l with
  | nil => rfl
  | cons i is ih =>
    simp only [List.foldl_cons]
    by_cases hik : i = k
    · subst hik
      rw [ih (modifyIdx f i l) (by simpa [modifyIdx_length] using h)]
      rw [getD_modifyIdx_self f i l d h]
      rw [List.count_cons_self]
      rw [Function.iterate_succ_apply]
    · rw [ih (modifyIdx f i l) (by simpa [modifyIdx_length] using h)]
      rw [getD_modifyIdx_ne f i k l d hik]
      congr 1
      simp [List.count_cons, hik]

lemma count_range_idx (k n : ℕ) (h : k < n) : (List.range n).count k = 1 :=
  List.count_eq_one_of_mem (List.nodup_range n) (List.mem_range.mpr h)

/-- C8 counterexample: element translation is not read-only on the parsed
source slide objects; with ratio 2 a parsed element of geometry (1,1,3,4)
has been overwritten after the translation loop ran. -/
theorem parse_elements_mutation_cex :
    srcAfterParseElements 2 [{ left := 1, top := 1, width := 3, height := 4, order := 0 }] ≠
      [{ left := 1, top := 1, width := 3, height := 4, order := 0 }] := by
  intro h
  have h2 := List.head_eq_of_cons_eq h
  rw [SrcGeom.mk.injEq] at h2
  simp only [scaleSrcGeom] at h2
  norm_num at h2

/-- C8 amended: classification and tagging operate on a deep copy of the
claimed slide (toTemplateSlide clones before tagging), but element
translation does mutate the parsed source elements: after the translation
loop, every parsed element has been overwritten exactly once with its
ratio-scaled geometry. -/
theorem parse_elements_scales_each_source_once (ratio : ℚ) (els : List SrcGeom) :
    srcAfterParseElements ratio els = els.map (scaleSrcGeom ratio) := by
  have hlen : (srcAfterParseElements ratio els).length = els.length :=
    foldl_modify_length _ _ _
  apply List.ext_getElem (by simp [hlen])
  intro i h1 h2
  have hi : i < els.length := by simpa [hlen] using h1
  have hcount : (sortIdxByOrder els).count i = 1 := by
    have hperm := sortBy_perm
      (fun i j => decide ((els.getD i default).order < (els.getD j default).order))
      (List.range els.length)
    rw [sortIdxByOrder, hperm.count_eq, count_range_idx i els.length hi]
  have hD := foldl_modify_getD (scaleSrcGeom ratio) (sortIdxByOrder els) els i default hi
  rw [hcount, Function.iterate_one] at hD
  have hL : (srcAfterParseElements ratio els)[i] =
      (srcAfterParseElements ratio els).getD i default :=
    (List.getD_eq_getElem _ _ h1).symm
  rw [hL]
  have hR : srcAfterParseElements ratio els =
      (sortIdxByOrder els).foldl (fun st i => modifyIdx (scaleSrcGeom ratio) i st) els := rfl
  rw [hR, hD, List.getElem_map, List.getD_eq_getElem _ _ hi]

/- ---------- C6: table column fractions and span preservation ---------- -/

lemma foldl_add_eq_sum (l : List ℚ) (a : ℚ) : l.foldl (fun x y => x + y) a = a + l.sum := by
  induction l generalizing a with
  | nil => simp
  | cons x xs ih => simp [List.foldl_cons, ih]; ring

lemma sum_map_div (l : List ℚ) (c : ℚ) : (l.map (fun w => w / c)).sum = l.sum / c := by
  induction l with
  | nil => simp
  | cons x xs ih => simp [ih, add_div]

def cellWithSpans (cs rs : Option ℕ) : SrcTableCell :=
  { dummySrcCell with colSpan := cs, rowSpan := rs }

def tableCex : SrcTableEl :=
  { left := 0, top := 0, width := 100, height := 50,
    data := [[cellWithSpans (some 0) (some 0)]],
    colWidths := [2], rowHeights := [20],
    borders := { btop := none, bbottom := none, bleft := none, bright := none } }

/-- C6 counterexample: the output colspan does not always equal the source
colSpan value: a source cell whose colSpan is 0 is emitted with colspan 1
(the or-1 defaulting of useImport.ts line 433). -/
theorem table_span_zero_cex :
    ¬ (some ((((parseTableElement 1 tableCex 0).1.data.getD 0 []).getD 0 dummyCellM).colspan) =
       ((tableCex.data.getD 0 []).getD 0 dummySrcCell).colSpan) := by
  decide

/-- C6 amended: for a table whose source column widths are positive (and
present), the emitted column-width fractions sum to exactly 1, and each
output cell colspan and rowspan equals the source value when that value is
present and nonzero, defaulting to 1 otherwise. -/
theorem table_fractions_and_spans (ratio : ℚ) (el : SrcTableEl) (c : ℕ)
    (hpos : ∀ w ∈ el.colWidths, 0 < w) (hne : el.colWidths ≠ []) :
    ((parseTableElement ratio el c).1.colWidths).sum = 1 ∧
    (∀ i j : ℕ, i < el.data.length → j < (el.data.getD 0 []).length →
      (((parseTableElement ratio el c).1.data.getD i []).getD j dummyCellM).colspan =
        spanOrOne (((el.data.getD i []).getD j dummySrcCell).colSpan) ∧
      (((parseTableElement ratio el c).1.data.getD i []).getD j dummyCellM).rowspan =
        spanOrOne (((el.data.getD i []).getD j dummySrcCell).rowSpan)) := by
  have hsumpos : 0 < el.colWidths.sum := List.sum_pos el.colWidths hpos hne
  constructor
  · show (el.colWidths.map
      (fun w => w / el.colWidths.foldl (fun a b => a + b) 0)).sum = 1
    rw [foldl_add_eq_sum, zero_add, sum_map_div]
    exact div_self (ne_of_gt hsumpos)
  · intro i j hi hj
    have hrow : (parseTableElement ratio el c).1.data.getD i [] =
        (List.range ((el.data.getD 0 []).length)).map (fun j =>
          translateTableCell ratio (c + i * (el.data.getD 0 []).length + j)
            ((el.data.getD i []).getD j dummySrcCell)) := by
      show ((List.range el.data.length).map _).getD i [] = _
      rw [List.getD_eq_getElem _ _ (by simpa using hi), List.getElem_map, List.getElem_range]
    rw [hrow, List.getD_eq_getElem _ _ (by simpa using hj), List.getElem_map,
      List.getElem_range]
    exact ⟨rfl, rfl⟩

def tableWit : SrcTableEl :=
  { left := 0, top := 0, width := 100, height := 50,
    data := [[cellWithSpans (some 2) none, cellWithSpans none (some 3)]],
    colWidths := [1, 3], rowHeights := [20],
    borders := { btop := none, bbottom := none, bleft := none, bright := none } }

/-- Witness for the amended C6 theorem on a concrete 1-row 2-column table. -/
theorem table_fractions_and_spans_witness :
    ((∀ w ∈ tableWit.colWidths, 0 < w) ∧ tableWit.colWidths ≠ []) ∧
    (((parseTableElement 1 tableWit 0).1.colWidths).sum = 1 ∧
     (∀ i j : ℕ, i < tableWit.data.length → j < (tableWit.data.getD 0 []).length →
       (((parseTableElement 1 tableWit 0).1.data.getD i []).getD j dummyCellM).colspan =
         spanOrOne (((tableWit.data.getD i []).getD j dummySrcCell).colSpan) ∧
       (((parseTableElement 1 tableWit 0).1.data.getD i []).getD j dummyCellM).rowspan =
         spanOrOne (((tableWit.data.getD i []).getD j dummySrcCell).rowSpan))) :=
  ⟨⟨by decide, by decide⟩,
   table_fractions_and_spans 1 tableWit 0 (by decide) (by decide)⟩

/- ---------- C7: the thank-you slide scores end over content ---------- -/

def thankYouEl (l t w h : ℚ) : PElem :=
  { id := 1, kind := ElKind.textKind, left := l, top := t, width := w, height := h,
    rotate := 0, runs := [{ font := some 44, text := "Thank You" }],
    textType := none, groupId := none }

/-- C7: a slide whose only text element is the plain text Thank You rendered
at font size 44 scores strictly higher for the end role than for the content
role, for every viewport configuration and element geometry. -/
theorem thank_you_end_over_content (cfg : Cfg) (l t w h : ℚ) :
    scoreSlideAs cfg { id := 1, elements := [thankYouEl l t w h], stype := none } "content" <
    scoreSlideAs cfg { id := 1, elements := [thankYouEl l t w h], stype := none } "end" := by
  set s : Slide := { id := 1, elements := [thankYouEl l t w h], stype := none } with hs
  have hbase : ((textualEls s.elements).map statOf).length = 1 := by
    simp [hs, textualEls, isTextual, thankYouEl]
  have husable : (usableOf cfg s).length ≤ 1 := by
    rw [← hbase]
    unfold usableOf
    exact le_trans (List.length_filter_le _ _)
      (le_trans (List.length_filter_le _ _)
        (le_trans (List.length_filter_le _ _) (List.length_filter_le _ _)))
  have hlist : listLikeCountOf cfg s ≤ 1 :=
    le_trans (List.length_filter_le _ _) husable
  have hc0 : scoreSlideAs cfg s "content"
      = (if 4 ≤ listLikeCountOf cfg s then 20 else 0)
        + (if 2 ≤ (usableOf cfg s).length then 10 else 0) := rfl
  have he0 : scoreSlideAs cfg s "end"
      = (if hasKw cfg s ["致谢", "谢谢", "thanks", "thank", "the end", "结束"] then 120 else 0)
        + (if (usableOf cfg s).length ≤ 3 then 20 else 0)
        + (if (36:ℚ) ≤ maxFontOf cfg s then 10 else 0) := rfl
  rw [hc0, he0, if_neg (show ¬(4 ≤ listLikeCountOf cfg s) by omega),
    if_neg (show ¬(2 ≤ (usableOf cfg s).length) by omega),
    if_pos (show (usableOf cfg s).length ≤ 3 by omega)]
  split_ifs <;> norm_num

/- ---------- C10: required tags after tagging and synthesis ---------- -/

lemma hasTagL_append (a b : List PElem) (t : String) :
    hasTagL (a ++ b) t = (hasTagL a t || hasTagL b t) := by
  simp [hasTagL]

lemma hasTagL_box (idv : ℕ) (l tp w h fs : ℚ) (tag : String) (gid : Option ℕ) (t : String) :
    hasTagL [mkPlaceholderBox idv l tp w h fs tag gid] t = (tag == t) := by
  simp [hasTagL, mkPlaceholderBox, isTextual]

lemma hasTagL_cons_box (idv : ℕ) (l tp w h fs : ℚ) (tag : String) (gid : Option ℕ)
    (rest : List PElem) (t : String) :
    hasTagL (mkPlaceholderBox idv l tp w h fs tag gid :: rest) t
      = ((tag == t) || hasTagL rest t) := by
  simp [hasTagL, mkPlaceholderBox, isTextual]
  rfl

lemma hasTagL_nil (t : String) : hasTagL [] t = false := rfl

/-- The rows the contents branch appends never carry a tag other than item
and itemNumber. -/
lemma contentsRowBoxes_noTag (cfg : Cfg) (hI hN : Bool) (tg : String)
    (h1 : tg ≠ "item") (h2 : tg ≠ "itemNumber") :
    ∀ (n i c : ℕ), hasTagL (contentsRowBoxes cfg hI hN i c n).1 tg = false := by
  intro n
  induction n with
  | zero => intro i c; rfl
  | succ m ih =>
    intro i c
    simp only [contentsRowBoxes]
    split <;> split <;>
      simp [hasTagL_append, hasTagL_box, hasTagL_cons_box, ih, beq_eq_false_iff_ne,
        Ne.symm h1, Ne.symm h2]

/-- The rows the content branch appends never carry a tag other than item,
itemTitle and itemNumber. -/
lemma contentTripleBoxes_noTag (cfg : Cfg) (hI hIT hN : Bool) (tg : String)
    (h1 : tg ≠ "item") (h2 : tg ≠ "itemNumber") (h3 : tg ≠ "itemTitle") :
    ∀ (n i c : ℕ), hasTagL (contentTripleBoxes cfg hI hIT hN i c n).1 tg = false := by
  intro n
  induction n with
  | zero => intro i c; rfl
  | succ m ih =>
    intro i c
    simp only [contentTripleBoxes]
    split <;> split <;> split <;>
      simp [hasTagL_append, hasTagL_box, hasTagL_cons_box, ih, beq_eq_false_iff_ne,
        Ne.symm h1, Ne.symm h2, Ne.symm h3]

lemma coverExtra_spec (cfg : Cfg) (els : List PElem) (c : ℕ) :
    hasTagL (coverExtra cfg els c).1 "title" = !hasTagL els "title" ∧
    hasTagL (coverExtra cfg els c).1 "content" = !hasTagL els "content" := by
  simp only [coverExtra]
  split_ifs <;>
    simp_all only [hasTagL_append, hasTagL_cons_box, hasTagL_box, hasTagL_nil,
      Bool.not_eq_true, Bool.not_true, Bool.not_false, Bool.or_false, Bool.false_or,
      Bool.or_true, Bool.true_or] <;>
    trivial

lemma transitionExtra_spec (cfg : Cfg) (els : List PElem) (c : ℕ) :
    hasTagL (transitionExtra cfg els c).1 "title" = !hasTagL els "title" ∧
    hasTagL (transitionExtra cfg els c).1 "content" = !hasTagL els "content" ∧
    hasTagL (transitionExtra cfg els c).1 "partNumber" = !hasTagL els "partNumber" := by
  simp only [transitionExtra]
  split_ifs <;>
    simp_all only [hasTagL_append, hasTagL_cons_box, hasTagL_box, hasTagL_nil,
      Bool.not_eq_true, Bool.not_true, Bool.not_false, Bool.or_false, Bool.false_or,
      Bool.or_true, Bool.true_or] <;>
    trivial

lemma endExtra_spec (cfg : Cfg) (els : List PElem) (c : ℕ) :
    hasTagL (endExtra cfg els c).1 "title" = !hasTagL els "title" := by
  simp only [endExtra]
  split_ifs <;>
    simp_all only [hasTagL_append, hasTagL_cons_box, hasTagL_box, hasTagL_nil,
      Bool.not_eq_true, Bool.not_true, Bool.not_false, Bool.or_false, Bool.false_or,
      Bool.or_true, Bool.true_or] <;>
    trivial

lemma contentsExtra_title (cfg : Cfg) (els : List PElem) (c : ℕ) :
    hasTagL (contentsExtra cfg els c).1 "title" = !hasTagL els "title" := by
  have hR := contentsRowBoxes_noTag cfg (hasTagL els "item") (hasTagL els "itemNumber")
    "title" (by decide) (by decide)
  simp only [contentsExtra]
  split_ifs <;>
    simp_all only [hasTagL_append, hasTagL_cons_box, hasTagL_box, hasTagL_nil,
      Bool.not_eq_true, Bool.not_true, Bool.not_false, Bool.or_false, Bool.false_or,
      Bool.or_true, Bool.true_or] <;>
    trivial

lemma contentRoleExtra_spec (cfg : Cfg) (els : List PElem) (c : ℕ) :
    hasTagL (contentRoleExtra cfg els c).1 "title" = !hasTagL els "title" ∧
    hasTagL (contentRoleExtra cfg els c).1 "content" = !hasTagL els "content" := by
  have hT := contentTripleBoxes_noTag cfg (hasTagL els "item") (hasTagL els "itemTitle")
    (hasTagL els "itemNumber") "title" (by decide) (by decide) (by decide)
  have hC := contentTripleBoxes_noTag cfg (hasTagL els "item") (hasTagL els "itemTitle")
    (hasTagL els "itemNumber") "content" (by decide) (by decide) (by decide)
  simp only [contentRoleExtra]
  split_ifs <;>
    simp_all only [hasTagL_append, hasTagL_cons_box, hasTagL_box, hasTagL_nil,
      Bool.not_eq_true, Bool.not_true, Bool.not_false, Bool.or_false, Bool.false_or,
      Bool.or_true, Bool.true_or] <;>
    trivial

lemma hasTag_res (A E : List PElem) (t : String) (h : hasTagL E t = !hasTagL A t) :
    hasTagL (A ++ E) t = true := by
  rw [hasTagL_append, h]
  exact Bool.or_not_self _

/-- C10: for every source slide and every role, the template slide produced
by cloning, tagging and placeholder synthesis only appends placeholder boxes
to the tagged elements, afterwards carries at least one element tagged title
(and content for the cover, transition and content roles, and partNumber for
the transition role), and the synthesizer appends a box for one of these
tags exactly when tagging left that tag absent slide-wide. -/
theorem template_slide_required_tags (cfg : Cfg) (source : Slide) (t : String) (c : ℕ)
    (ht : t = "cover" ∨ t = "contents" ∨ t = "transition" ∨ t = "content" ∨ t = "end") :
    (toTemplateSlide cfg source t c).1.elements
      = autoTagElems cfg source.elements t
        ++ (ensureExtra cfg (autoTagElems cfg source.elements t) t c).1 ∧
    hasTextType (toTemplateSlide cfg source t c).1 "title" = true ∧
    ((t = "cover" ∨ t = "transition" ∨ t = "content") →
      hasTextType (toTemplateSlide cfg source t c).1 "content" = true) ∧
    (t = "transition" →
      hasTextType (toTemplateSlide cfg source t c).1 "partNumber" = true) ∧
    (hasTagL (ensureExtra cfg (autoTagElems cfg source.elements t) t c).1 "title"
      = !hasTagL (autoTagElems cfg source.elements t) "title") ∧
    ((t = "cover" ∨ t = "transition" ∨ t = "content") →
      hasTagL (ensureExtra cfg (autoTagElems cfg source.elements t) t c).1 "content"
        = !hasTagL (autoTagElems cfg source.elements t) "content") ∧
    (t = "transition" →
      hasTagL (ensureExtra cfg (autoTagElems cfg source.elements t) t c).1 "partNumber"
        = !hasTagL (autoTagElems cfg source.elements t) "partNumber") := by
  rcases ht with rfl | rfl | rfl | rfl | rfl
  · obtain ⟨h1, h2⟩ := coverExtra_spec cfg (autoTagElems cfg source.elements "cover") c
    exact ⟨rfl, hasTag_res _ _ _ h1, fun _ => hasTag_res _ _ _ h2,
      fun h => absurd h (by decide), h1, fun _ => h2, fun h => absurd h (by decide)⟩
  · have h1 := contentsExtra_title cfg (autoTagElems cfg source.elements "contents") c
    exact ⟨rfl, hasTag_res _ _ _ h1,
      fun h => absurd h (by decide), fun h => absurd h (by decide), h1,
      fun h => absurd h (by decide), fun h => absurd h (by decide)⟩
  · obtain ⟨h1, h2, h3⟩ :=
      transitionExtra_spec cfg (autoTagElems cfg source.elements "transition") c
    exact ⟨rfl, hasTag_res _ _ _ h1, fun _ => hasTag_res _ _ _ h2,
      fun _ => hasTag_res _ _ _ h3, h1, fun _ => h2, fun _ => h3⟩
  · obtain ⟨h1, h2⟩ := contentRoleExtra_spec cfg (autoTagElems cfg source.elements "content") c
    exact ⟨rfl, hasTag_res _ _ _ h1, fun _ => hasTag_res _ _ _ h2,
      fun h => absurd h (by decide), h1, fun _ => h2, fun h => absurd h (by decide)⟩
  · have h1 := endExtra_spec cfg (autoTagElems cfg source.elements "end") c
    exact ⟨rfl, hasTag_res _ _ _ h1, fun h => absurd h (by decide),
      fun h => absurd h (by decide), h1, fun h => absurd h (by decide),
      fun h => absurd h (by decide)⟩

/-- Witness for the C10 theorem at the transition role on an empty slide. -/
theorem template_slide_required_tags_witness :
    (("transition" : String) = "cover" ∨ ("transition" : String) = "contents" ∨
     ("transition" : String) = "transition" ∨ ("transition" : String) = "content" ∨
     ("transition" : String) = "end") ∧
    ((toTemplateSlide cfgDefault dummySlide "transition" 0).1.elements
      = autoTagElems cfgDefault dummySlide.elements "transition"
        ++ (ensureExtra cfgDefault (autoTagElems cfgDefault dummySlide.elements "transition")
              "transition" 0).1 ∧
    hasTextType (toTemplateSlide cfgDefault dummySlide "transition" 0).1 "title" = true ∧
    ((("transition" : String) = "cover" ∨ ("transition" : String) = "transition" ∨
        ("transition" : String) = "content") →
      hasTextType (toTemplateSlide cfgDefault dummySlide "transition" 0).1 "content" = true) ∧
    (("transition" : String) = "transition" →
      hasTextType (toTemplateSlide cfgDefault dummySlide "transition" 0).1 "partNumber"
        = true) ∧
    (hasTagL (ensureExtra cfgDefault
        (autoTagElems cfgDefault dummySlide.elements "transition") "transition" 0).1 "title"
      = !hasTagL (autoTagElems cfgDefault dummySlide.elements "transition") "title") ∧
    ((("transition" : String) = "cover" ∨ ("transition" : String) = "transition" ∨
        ("transition" : String) = "content") →
      hasTagL (ensureExtra cfgDefault
          (autoTagElems cfgDefault dummySlide.elements "transition") "transition" 0).1 "content"
        = !hasTagL (autoTagElems cfgDefault dummySlide.elements "transition") "content") ∧
    (("transition" : String) = "transition" →
      hasTagL (ensureExtra cfgDefault
          (autoTagElems cfgDefault dummySlide.elements "transition") "transition" 0).1
          "partNumber"
        = !hasTagL (autoTagElems cfgDefault dummySlide.elements "transition") "partNumber")) :=
  ⟨Or.inr (Or.inr (Or.inl rfl)),
   template_slide_required_tags cfgDefault dummySlide "transition" 0
     (Or.inr (Or.inr (Or.inl rfl)))⟩

/- ---------- C3: contents abstention and the ten synthesized pairs ---------- -/

lemma hasTagL_clear (els : List PElem) (t : String) :
    hasTagL (els.map clearTextType) t = false := by
  rw [hasTagL, List.any_eq_false]
  intro e he
  obtain ⟨e0, _, rfl⟩ := List.mem_map.mp he
  cases h : e0.kind <;> simp [clearTextType, isTextual, h]

lemma hasTagL_tagIds_ne (els : List PElem) (ids : List ℕ) (tg t : String)
    (hne : tg ≠ t) (h0 : hasTagL els t = false) :
    hasTagL (tagIds els ids tg) t = false := by
  rw [hasTagL, List.any_eq_false]
  intro e he
  obtain ⟨e0, he0, rfl⟩ := List.mem_map.mp he
  have h1 : (isTextual e0 && e0.textType == some t) = false := by
    rw [hasTagL, List.any_eq_false] at h0
    simpa using h0 e0 he0
  split
  · cases hk : e0.kind <;> simp [setTextType, isTextual, hk, hne]
  · simpa using h1

lemma hasTagL_no_textual (els : List PElem) (t : String) (h : textualEls els = []) :
    hasTagL els t = false := by
  rw [hasTagL, List.any_eq_false]
  intro e he
  have := (List.filter_eq_nil_iff.mp h) e he
  simp [isTextual] at this
  simp [isTextual, this]

/-- When fewer than 3 boxes pass the wide/short/moderate-area filter, the
contents branch of the tagger produces no tagging steps (line 1074). -/
lemma contentsSteps_empty (cfg : Cfg) (els : List PElem)
    (h : (contentsWideOf cfg els).length < 3) : contentsSteps cfg els = [] := by
  simp only [contentsSteps]
  split_ifs <;> rfl

/-- Under the abstention condition the contents tagger leaves no item and no
itemNumber tags: it clears old tags and at most tags a title. -/
lemma autoTag_contents_no_items (cfg : Cfg) (els : List PElem)
    (h : (contentsWideOf cfg (els.map clearTextType)).length < 3) :
    hasTagL (autoTagElems cfg els "contents") "item" = false ∧
    hasTagL (autoTagElems cfg els "contents") "itemNumber" = false := by
  unfold autoTagElems
  split
  case isTrue hemp =>
    have he : textualEls els = [] := by
      simpa [List.isEmpty_iff] using hemp
    exact ⟨hasTagL_no_textual els "item" he, hasTagL_no_textual els "itemNumber" he⟩
  case isFalse =>
    have hcs : contentsSteps cfg (els.map clearTextType) = [] := contentsSteps_empty _ _ h
    have hsteps : autoTagSteps cfg (els.map clearTextType) "contents"
        = (match titleOf cfg (els.map clearTextType) "contents" with
           | some e => [([e.id], "title")]
           | none => []) ++ contentsSteps cfg (els.map clearTextType) := rfl
    dsimp only
    rw [hsteps, hcs, List.append_nil]
    cases hti : titleOf cfg (els.map clearTextType) "contents" with
    | none =>
      exact ⟨hasTagL_clear els "item", hasTagL_clear els "itemNumber"⟩
    | some e =>
      constructor
      · exact hasTagL_tagIds_ne _ _ "title" "item" (by decide) (hasTagL_clear els "item")
      · exact hasTagL_tagIds_ne _ _ "title" "itemNumber" (by decide)
          (hasTagL_clear els "itemNumber")

lemma range_succ_shift (c m : ℕ) :
    (List.range (m+1)).map (fun k => some (c + 3 * k))
      = some c :: (List.range m).map (fun k => some (c + 3 + 3 * k)) := by
  rw [List.range_succ_eq_map, List.map_cons, List.map_map]
  refine congrArg₂ _ (by simp) ?_
  apply List.map_congr_left
  intro k _
  simp [Function.comp]
  omega

/-- The group ids of the item and itemNumber boxes generated by the contents
rows: row k of a run starting at counter value c carries group id c + 3k. -/
lemma contentsRowBoxes_gids (cfg : Cfg) :
    ∀ (n i c : ℕ),
      ((contentsRowBoxes cfg false false i c n).1.filter
          (fun e => isTextual e && e.textType == some "item")).map (fun e => e.groupId)
        = (List.range n).map (fun k => some (c + 3 * k)) ∧
      ((contentsRowBoxes cfg false false i c n).1.filter
          (fun e => isTextual e && e.textType == some "itemNumber")).map (fun e => e.groupId)
        = (List.range n).map (fun k => some (c + 3 * k)) := by
  intro n
  induction n with
  | zero => intro i c; exact ⟨rfl, rfl⟩
  | succ m ih =>
    intro i c
    obtain ⟨ih1, ih2⟩ := ih (i+1) (c+3)
    simp only [contentsRowBoxes, if_neg, Bool.false_eq_true, ite_false]
    constructor
    · rw [range_succ_shift c m, ← ih1]
      simp [mkPlaceholderBox, isTextual, List.filter_cons]
    · rw [range_succ_shift c m, ← ih2]
      simp [mkPlaceholderBox, isTextual, List.filter_cons]

lemma filter_tag_nil (els : List PElem) (t : String) (h : hasTagL els t = false) :
    els.filter (fun e => isTextual e && e.textType == some t) = [] := by
  rw [List.filter_eq_nil_iff]
  intro e he
  rw [hasTagL, List.any_eq_false] at h
  simpa using h e he

/-- C3: for a slide processed as the contents role, when fewer than 3
candidate boxes pass the wide/short/moderate-area list-row filter the tagger
applies no item or itemNumber tag at all, and the placeholder synthesizer
then appends exactly 10 item and 10 itemNumber placeholder boxes, the item
and itemNumber of row k sharing the freshly generated group id c + 3k, all
ten group ids distinct. -/
theorem contents_abstain_ten_pairs (cfg : Cfg) (source : Slide) (c : ℕ)
    (h : (contentsWideOf cfg (source.elements.map clearTextType)).length < 3) :
    hasTagL (autoTagElems cfg source.elements "contents") "item" = false ∧
    hasTagL (autoTagElems cfg source.elements "contents") "itemNumber" = false ∧
    (((toTemplateSlide cfg source "contents" c).1.elements.filter
        (fun e => isTextual e && e.textType == some "item")).map (fun e => e.groupId))
      = (List.range 10).map (fun k => some (c + 3 * k)) ∧
    (((toTemplateSlide cfg source "contents" c).1.elements.filter
        (fun e => isTextual e && e.textType == some "itemNumber")).map (fun e => e.groupId))
      = (List.range 10).map (fun k => some (c + 3 * k)) ∧
    ((toTemplateSlide cfg source "contents" c).1.elements.filter
        (fun e => isTextual e && e.textType == some "item")).length = 10 ∧
    ((toTemplateSlide cfg source "contents" c).1.elements.filter
        (fun e => isTextual e && e.textType == some "itemNumber")).length = 10 ∧
    (((toTemplateSlide cfg source "contents" c).1.elements.filter
        (fun e => isTextual e && e.textType == some "item")).map (fun e => e.groupId)).Nodup := by
  obtain ⟨hA1, hA2⟩ := autoTag_contents_no_items cfg source.elements h
  have hres : (toTemplateSlide cfg source "contents" c).1.elements
      = autoTagElems cfg source.elements "contents"
        ++ (contentsExtra cfg (autoTagElems cfg source.elements "contents") c).1 := rfl
  have htb : ∃ tb, (contentsExtra cfg (autoTagElems cfg source.elements "contents") c).1
        = (contentsRowBoxes cfg false false 0 c 10).1 ++ tb
      ∧ tb.filter (fun e => isTextual e && e.textType == some "item") = []
      ∧ tb.filter (fun e => isTextual e && e.textType == some "itemNumber") = [] := by
    simp only [contentsExtra, hA1, hA2, Bool.false_and, Bool.false_eq_true, ite_false]
    split_ifs with htit
    · exact ⟨[], by simp, rfl, rfl⟩
    · refine ⟨_, rfl, ?_, ?_⟩ <;> simp [mkPlaceholderBox, isTextual, List.filter_cons]
  obtain ⟨tb, htbe, htb1, htb2⟩ := htb
  obtain ⟨hg1, hg2⟩ := contentsRowBoxes_gids cfg 10 0 c
  have hfilter1 : ((toTemplateSlide cfg source "contents" c).1.elements.filter
      (fun e => isTextual e && e.textType == some "item"))
      = ((contentsRowBoxes cfg false false 0 c 10).1.filter
          (fun e => isTextual e && e.textType == some "item")) := by
    rw [hres, htbe, List.filter_append, List.filter_append,
      filter_tag_nil _ _ hA1, htb1, List.nil_append, List.append_nil]
  have hfilter2 : ((toTemplateSlide cfg source "contents" c).1.elements.filter
      (fun e => isTextual e && e.textType == some "itemNumber"))
      = ((contentsRowBoxes cfg false false 0 c 10).1.filter
          (fun e => isTextual e && e.textType == some "itemNumber")) := by
    rw [hres, htbe, List.filter_append, List.filter_append,
      filter_tag_nil _ _ hA2, htb2, List.nil_append, List.append_nil]
  have hlen1 : ((toTemplateSlide cfg source "contents" c).1.elements.filter
      (fun e => isTextual e && e.textType == some "item")).length = 10 := by
    rw [hfilter1]
    have h2 := congrArg List.length hg1
    simpa using h2
  have hlen2 : ((toTemplateSlide cfg source "contents" c).1.elements.filter
      (fun e => isTextual e && e.textType == some "itemNumber")).length = 10 := by
    rw [hfilter2]
    have h2 := congrArg List.length hg2
    simpa using h2
  refine ⟨hA1, hA2, ?_, ?_, hlen1, hlen2, ?_⟩
  · rw [hfilter1, hg1]
  · rw [hfilter2, hg2]
  · rw [hfilter1, hg1]
    refine List.Nodup.map ?_ (List.nodup_range 10)
    intro a b hab
    simp at hab
    omega

/-- Witness for the C3 theorem on an elementless slide at counter 5. -/
theorem contents_abstain_ten_pairs_witness :
    (contentsWideOf cfgDefault (dummySlide.elements.map clearTextType)).length < 3 ∧
    (hasTagL (autoTagElems cfgDefault dummySlide.elements "contents") "item" = false ∧
     hasTagL (autoTagElems cfgDefault dummySlide.elements "contents") "itemNumber" = false ∧
     (((toTemplateSlide cfgDefault dummySlide "contents" 5).1.elements.filter
         (fun e => isTextual e && e.textType == some "item")).map (fun e => e.groupId))
       = (List.range 10).map (fun k => some (5 + 3 * k)) ∧
     (((toTemplateSlide cfgDefault dummySlide "contents" 5).1.elements.filter
         (fun e => isTextual e && e.textType == some "itemNumber")).map (fun e => e.groupId))
       = (List.range 10).map (fun k => some (5 + 3 * k)) ∧
     ((toTemplateSlide cfgDefault dummySlide "contents" 5).1.elements.filter
         (fun e => isTextual e && e.textType == some "item")).length = 10 ∧
     ((toTemplateSlide cfgDefault dummySlide "contents" 5).1.elements.filter
         (fun e => isTextual e && e.textType == some "itemNumber")).length = 10 ∧
     (((toTemplateSlide cfgDefault dummySlide "contents" 5).1.elements.filter
         (fun e => isTextual e && e.textType == some "item")).map (fun e => e.groupId)).Nodup) :=
  ⟨by decide, contents_abstain_ten_pairs cfgDefault dummySlide 5 (by decide)⟩

/- ---------- C1 and C2: role assignment policy and deck assembly ---------- -/


lemma bestLoop_none (score : ℕ → ℚ) (used : List ℕ) :
    ∀ (idxs : List ℕ) (acc : Option (ℕ × ℚ)),
      bestLoop score used idxs acc = none → acc = none ∧ ∀ i ∈ idxs, i ∈ used := by
  intro idxs
  induction idxs with
  | nil => intro acc h; exact ⟨h, by simp⟩
  | cons i is ih =>
    intro acc h
    simp only [bestLoop] at h
    split at h
    · obtain ⟨h1, h2⟩ := ih acc h
      refine ⟨h1, ?_⟩
      intro j hj
      rcases List.mem_cons.mp hj with rfl | hj2
      · assumption
      · exact h2 j hj2
    · cases acc with
      | none =>
        dsimp only at h
        obtain ⟨h1, _⟩ := ih _ h
        exact absurd h1 (by simp)
      | some p =>
        obtain ⟨b, bs⟩ := p
        dsimp only at h
        split at h
        · obtain ⟨h1, _⟩ := ih _ h
          exact absurd h1 (by simp)
        · obtain ⟨h1, _⟩ := ih _ h
          exact absurd h1 (by simp)

lemma bestLoop_some (score : ℕ → ℚ) (used : List ℕ) :
    ∀ (idxs : List ℕ) (acc : Option (ℕ × ℚ)) (r : ℕ) (rs : ℚ),
      bestLoop score used idxs acc = some (r, rs) →
      (∀ b bs, acc = some (b, bs) → bs = score b ∧ b ∉ used) →
      rs = score r ∧ r ∉ used ∧ (∀ i ∈ idxs, i ∉ used → score i ≤ rs) ∧
      (∀ b bs, acc = some (b, bs) → bs ≤ rs) ∧
      (r ∈ idxs ∨ acc = some (r, rs)) := by
  intro idxs
  induction idxs with
  | nil =>
    intro acc r rs h hgood
    simp only [bestLoop] at h
    obtain ⟨h1, h2⟩ := hgood r rs h
    refine ⟨h1, h2, by simp, ?_, Or.inr h⟩
    intro b bs hb
    rw [h] at hb
    injection hb with hbe
    injection hbe with ha hb2
    subst ha
    subst hb2
    exact le_refl _
  | cons i is ih =>
    intro acc r rs h hgood
    simp only [bestLoop] at h
    split at h
    · rename_i hiu
      obtain ⟨h1, h2, h3, h4, h5⟩ := ih acc r rs h hgood
      refine ⟨h1, h2, ?_, h4, ?_⟩
      · intro j hj hju
        rcases List.mem_cons.mp hj with rfl | hj2
        · exact absurd hiu hju
        · exact h3 j hj2 hju
      · rcases h5 with h5 | h5
        · exact Or.inl (List.mem_cons_of_mem _ h5)
        · exact Or.inr h5
    · rename_i hiu
      cases acc with
      | none =>
        dsimp only at h
        obtain ⟨h1, h2, h3, h4, h5⟩ := ih _ r rs h
          (by
            intro b bs hb
            injection hb with hbe
            injection hbe with ha hb2
            subst ha
            subst hb2
            exact ⟨rfl, hiu⟩)
        refine ⟨h1, h2, ?_, ?_, ?_⟩
        · intro j hj hju
          rcases List.mem_cons.mp hj with rfl | hj2
          · exact h4 j (score j) rfl
          · exact h3 j hj2 hju
        · intro b bs hb
          exact absurd hb (by simp)
        · rcases h5 with h5 | h5
          · exact Or.inl (List.mem_cons_of_mem _ h5)
          · injection h5 with h5e
            injection h5e with ha hb
            exact Or.inl (by simp [ha])
      | some p =>
        obtain ⟨b, bs⟩ := p
        dsimp only at h
        obtain ⟨hb1, hb2⟩ := hgood b bs rfl
        split at h
        · rename_i hlt
          obtain ⟨h1, h2, h3, h4, h5⟩ := ih _ r rs h
            (by
              intro b2 bs2 hb
              injection hb with hbe
              injection hbe with ha2 hb2e
              subst ha2
              subst hb2e
              exact ⟨rfl, hiu⟩)
          refine ⟨h1, h2, ?_, ?_, ?_⟩
          · intro j hj hju
            rcases List.mem_cons.mp hj with rfl | hj2
            · exact h4 j (score j) rfl
            · exact h3 j hj2 hju
          · intro b2 bs2 hb
            injection hb with hbe
            injection hbe with ha2 hb2e
            subst ha2
            subst hb2e
            exact le_of_lt (lt_of_lt_of_le hlt (h4 i (score i) rfl))
          · rcases h5 with h5 | h5
            · exact Or.inl (List.mem_cons_of_mem _ h5)
            · injection h5 with h5e
              injection h5e with ha _
              exact Or.inl (by simp [ha])
        · rename_i hnlt
          obtain ⟨h1, h2, h3, h4, h5⟩ := ih _ r rs h
            (by
              intro b2 bs2 hb
              injection hb with hbe
              injection hbe with ha2 hb2e
              subst ha2
              subst hb2e
              exact ⟨hb1, hb2⟩)
          refine ⟨h1, h2, ?_, ?_, ?_⟩
          · intro j hj hju
            rcases List.mem_cons.mp hj with rfl | hj2
            · exact le_trans (le_of_not_lt hnlt) (h4 b bs rfl)
            · exact h3 j hj2 hju
          · intro b2 bs2 hb
            injection hb with hbe
            injection hbe with ha2 hb2e
            subst ha2
            subst hb2e
            exact h4 _ _ rfl
          · rcases h5 with h5 | h5
            · exact Or.inl (List.mem_cons_of_mem _ h5)
            · exact Or.inr h5

lemma firstFree_none (used : List ℕ) :
    ∀ (l : List ℕ), firstFree used l = none → ∀ j ∈ l, j ∈ used := by
  intro l
  induction l with
  | nil => intro _ j hj; simp at hj
  | cons i is ih =>
    intro h j hj
    simp only [firstFree] at h
    split at h
    · rcases List.mem_cons.mp hj with rfl | hj2
      · assumption
      · exact ih h j hj2
    · cases h

lemma firstFree_range_spec (used : List ℕ) :
    ∀ (n s i : ℕ), firstFree used (List.range' s n) = some i →
      s ≤ i ∧ i < s + n ∧ i ∉ used ∧ ∀ j, s ≤ j → j < i → j ∈ used := by
  intro n
  induction n with
  | zero => intro s i h; cases h
  | succ m ih =>
    intro s i h
    rw [List.range'_succ] at h
    simp only [firstFree] at h
    split at h
    · rename_i hsu
      obtain ⟨h1, h2, h3, h4⟩ := ih (s+1) i h
      refine ⟨by omega, by omega, h3, ?_⟩
      intro j hj1 hj2
      rcases Nat.eq_or_lt_of_le hj1 with rfl | hlt
      · exact hsu
      · exact h4 j hlt hj2
    · rename_i hsu
      injection h with he
      subst he
      exact ⟨le_refl _, by omega, hsu, fun j hj1 hj2 => by omega⟩

/-- The behaviour the claim ascribes to one role-claiming step, following the
claim wording: claim the highest-scoring unclaimed slide when it clears the
threshold, else the positional default, else the first still-unclaimed index;
the returned claimed set is the old one plus the claimed index. -/
def roleClaimSpec (score : ℕ → ℚ) (n fallbackIndex : ℕ) (threshold : ℚ)
    (used : List ℕ) (result : ℕ × List ℕ) : Prop :=
  ((∃ j, j < n ∧ j ∉ used ∧ threshold ≤ score j) →
     (result.1 < n ∧ result.1 ∉ used ∧ threshold ≤ score result.1 ∧
      ∀ j, j < n → j ∉ used → score j ≤ score result.1)) ∧
  ((∀ j, j < n → j ∉ used → score j < threshold) →
     min fallbackIndex (n - 1) ∉ used → result.1 = min fallbackIndex (n - 1)) ∧
  ((∀ j, j < n → j ∉ used → score j < threshold) →
     min fallbackIndex (n - 1) ∈ used → (∃ j, j < n ∧ j ∉ used) →
     (result.1 < n ∧ result.1 ∉ used ∧ ∀ k, k < result.1 → k ∈ used)) ∧
  (result.1 ∈ result.2 ∧ ∀ x, x ∈ result.2 ↔ (x = result.1 ∨ x ∈ used))

lemma pickFallback_default (n fb : ℕ) (used : List ℕ) (h : min fb (n-1) ∉ used) :
    pickFallback n fb used = (min fb (n-1), min fb (n-1) :: used) := by
  simp [pickFallback, h]

lemma pickFallback_collision (n fb : ℕ) (used : List ℕ) (h : min fb (n-1) ∈ used)
    (hex : ∃ j, j < n ∧ j ∉ used) :
    (pickFallback n fb used).1 < n ∧ (pickFallback n fb used).1 ∉ used ∧
    ∀ k, k < (pickFallback n fb used).1 → k ∈ used := by
  obtain ⟨j, hj1, hj2⟩ := hex
  simp only [pickFallback, if_pos h]
  cases hff : firstFree used (List.range n) with
  | none =>
    exact absurd (firstFree_none used (List.range n) hff j (List.mem_range.mpr hj1)) hj2
  | some i =>
    obtain ⟨h1, h2, h3, h4⟩ := firstFree_range_spec used n 0 i (by rwa [← List.range_eq_range'])
    dsimp only
    exact ⟨by omega, h3, fun k hk => h4 k (by omega) hk⟩

lemma pickFallback_used (n fb : ℕ) (used : List ℕ) :
    (pickFallback n fb used).1 ∈ (pickFallback n fb used).2 ∧
    ∀ x, x ∈ (pickFallback n fb used).2 ↔ (x = (pickFallback n fb used).1 ∨ x ∈ used) := by
  simp only [pickFallback]
  split_ifs with h
  · cases hff : firstFree used (List.range n) with
    | none => exact ⟨h, fun x => by constructor <;> intro hx <;> [exact Or.inr hx; rcases hx with rfl | hx] <;> assumption⟩
    | some i => exact ⟨by simp, fun x => by simp⟩
  · exact ⟨by simp, fun x => by simp⟩

lemma pickBestIndex_spec (score : ℕ → ℚ) (n fb : ℕ) (thr : ℚ) (used : List ℕ) :
    roleClaimSpec score n fb thr used (pickBestIndex score n fb thr used) := by
  unfold pickBestIndex
  cases hbl : bestLoop score used (List.range n) none with
  | none =>
    have hall := bestLoop_none score used (List.range n) none hbl
    dsimp only
    refine ⟨?_, ?_, ?_, ?_⟩
    · rintro ⟨j, hj1, hj2, _⟩
      exact absurd (hall.2 j (List.mem_range.mpr hj1)) hj2
    · intro _ hfree; rw [pickFallback_default n fb used hfree]
    · intro _ hcol hex; exact pickFallback_collision n fb used hcol hex
    · exact pickFallback_used n fb used
  | some p =>
    obtain ⟨b, bs⟩ := p
    obtain ⟨hbs, hbnu, hmax, _, hmem⟩ :=
      bestLoop_some score used (List.range n) none b bs hbl (by intro _ _ h; cases h)
    have hbn : b < n := by
      rcases hmem with hm | hm
      · exact List.mem_range.mp hm
      · cases hm
    dsimp only
    by_cases hthr : thr ≤ bs
    · rw [if_pos hthr]
      refine ⟨?_, ?_, ?_, ?_⟩
      · intro _
        refine ⟨hbn, hbnu, ?_, ?_⟩
        · rw [← hbs]; exact hthr
        · intro j hj hjnu
          have := hmax j (List.mem_range.mpr hj) hjnu
          rw [hbs] at this; exact this
      · intro hbelow _
        exact absurd (hbs ▸ hthr) (not_le.mpr (hbelow b hbn hbnu))
      · intro hbelow _ _
        exact absurd (hbs ▸ hthr) (not_le.mpr (hbelow b hbn hbnu))
      · exact ⟨List.mem_cons_self b used, fun x => List.mem_cons⟩
    · rw [if_neg hthr]
      have hbelow2 : ¬∃ j, j < n ∧ j ∉ used ∧ thr ≤ score j := by
        rintro ⟨j, hj1, hj2, hj3⟩
        exact hthr (le_trans hj3 (hmax j (List.mem_range.mpr hj1) hj2))
      refine ⟨fun hex => absurd hex hbelow2, ?_, ?_, ?_⟩
      · intro _ hfree; rw [pickFallback_default n fb used hfree]
      · intro _ hcol hex; exact pickFallback_collision n fb used hcol hex
      · exact pickFallback_used n fb used

set_option maxHeartbeats 1000000 in
/-- C1: role assignment processes end, cover, contents, transition in order
with fallbacks n-1, 0, 1, 2 and thresholds 80, 60, 60, 50, each pick taking
the highest-scoring unclaimed slide when it clears the threshold, else the
positional default, else the first still-unclaimed index. -/
theorem role_assignment_policy (cfg : Cfg) (src : List Slide) :
    let n := src.length
    let p1 := pickBestIndex (scoreAt cfg src "end") n (n - 1) 80 []
    let p2 := pickBestIndex (scoreAt cfg src "cover") n 0 60 p1.2
    let p3 := pickBestIndex (scoreAt cfg src "contents") n 1 60 p2.2
    let p4 := pickBestIndex (scoreAt cfg src "transition") n 2 50 p3.2
    assignIndices cfg src = (p1.1, p2.1, p3.1, p4.1, p4.2) ∧
    roleClaimSpec (scoreAt cfg src "end") n (n - 1) 80 [] p1 ∧
    roleClaimSpec (scoreAt cfg src "cover") n 0 60 p1.2 p2 ∧
    roleClaimSpec (scoreAt cfg src "contents") n 1 60 p2.2 p3 ∧
    roleClaimSpec (scoreAt cfg src "transition") n 2 50 p3.2 p4 := by
  refine ⟨?_, pickBestIndex_spec _ _ _ _ _, pickBestIndex_spec _ _ _ _ _,
    pickBestIndex_spec _ _ _ _ _, pickBestIndex_spec _ _ _ _ _⟩
  rfl

lemma toTemplateSlide_stype (cfg : Cfg) (s : Slide) (t : String) (c : ℕ) :
    (toTemplateSlide cfg s t c).1.stype = some t := by
  unfold toTemplateSlide ensurePlaceholders
  rfl

lemma mapToTemplate_spec (cfg : Cfg) :
    ∀ (l : List Slide) (c : ℕ),
      (mapToTemplate cfg l c).1.length = l.length ∧
      ∀ s ∈ (mapToTemplate cfg l c).1, s.stype = some "content" := by
  intro l
  induction l with
  | nil => intro c; exact ⟨rfl, fun s hs => by cases hs⟩
  | cons a rest ih =>
    intro c
    simp only [mapToTemplate]
    constructor
    · simp only [List.length_cons]
      exact congrArg (· + 1) ((ih _).1)
    · intro s hs
      rcases List.mem_cons.mp hs with rfl | hs2
      · exact toTemplateSlide_stype cfg a "content" _
      · exact (ih _).2 s hs2

lemma contentSourcesOf_len (src : List Slide) (e cv co tr : ℕ) :
    1 ≤ (contentSourcesOf src e cv co tr).length := by
  unfold contentSourcesOf
  dsimp only
  split_ifs with h
  · simp
  · rw [List.isEmpty_iff] at h
    have : ((List.range src.length).filter
        (fun i => !(i == cv || i == co || i == tr || i == e))).map
        (fun i => src.getD i dummySlide) ≠ [] := h
    exact Nat.one_le_iff_ne_zero.mpr (fun hz => this (List.eq_nil_of_length_eq_zero hz))

set_option maxHeartbeats 1000000 in
/-- C2: the assembled template deck is exactly cover, contents, transition,
one content slide per unclaimed source slide, then end; when no source index
remains unclaimed the cover source is reused, so at least one content slide
is always present. -/
theorem assembled_deck_structure (cfg : Cfg) (slides : List Slide) (c : ℕ) :
    let src := (normalizeSources slides c).1
    let c0 := (normalizeSources slides c).2
    let r := assignIndices cfg src
    let e := r.1
    let cv := r.2.1
    let co := r.2.2.1
    let tr := r.2.2.2.1
    let cover := toTemplateSlide cfg (src.getD cv dummySlide) "cover" c0
    let contents := toTemplateSlide cfg (src.getD co dummySlide) "contents" cover.2
    let transition := toTemplateSlide cfg (src.getD tr dummySlide) "transition" contents.2
    let endS := toTemplateSlide cfg (src.getD e dummySlide) "end" transition.2
    let contentSrc := contentSourcesOf src e cv co tr
    let contentS := (mapToTemplate cfg contentSrc endS.2).1
    (assembleTemplate cfg slides c).1 =
      cover.1 :: contents.1 :: transition.1 :: (contentS ++ [endS.1]) ∧
    cover.1.stype = some "cover" ∧
    contents.1.stype = some "contents" ∧
    transition.1.stype = some "transition" ∧
    endS.1.stype = some "end" ∧
    (∀ s ∈ contentS, s.stype = some "content") ∧
    contentS.length = contentSrc.length ∧
    (let raw := ((List.range src.length).filter
        (fun i => !(i == cv || i == co || i == tr || i == e))).map
        (fun i => src.getD i dummySlide)
     if raw.isEmpty then contentSrc = [src.getD cv dummySlide] else contentSrc = raw) ∧
    1 ≤ contentS.length := by
  intro src c0 r e cv co tr cover contents transition endS contentSrc contentS
  refine ⟨?_, toTemplateSlide_stype _ _ _ _, toTemplateSlide_stype _ _ _ _,
    toTemplateSlide_stype _ _ _ _, toTemplateSlide_stype _ _ _ _,
    (mapToTemplate_spec cfg contentSrc _).2, (mapToTemplate_spec cfg contentSrc _).1,
    ?_, ?_⟩
  · rfl
  · dsimp only
    split_ifs with h
    · show contentSourcesOf src e cv co tr = _
      unfold contentSourcesOf
      dsimp only
      rw [if_pos h]
    · show contentSourcesOf src e cv co tr = _
      unfold contentSourcesOf
      dsimp only
      rw [if_neg h]
  · rw [(mapToTemplate_spec cfg contentSrc _).1]
    exact contentSourcesOf_len src e cv co tr
